import Mathlib

/-!
Shallow embedding of the age-of-agents game engine
(`config.py`, `engine/state.py`, `engine/validator.py`, `engine/economy.py`,
`engine/combat.py`, `engine/resolver.py`) and verification of the frozen
claims about it.

Conventions used throughout:
* Python dicts with string keys are embedded as association lists
  (`Dict α := List (String × α)`); lookup takes the first matching key and
  update replaces the value in place, mirroring Python dict semantics
  (dicts built by the engine never hold duplicate keys).
* Untrusted raw commands are embedded as a JSON-like value type `PyVal`.
  Membership tests `x in some_dict` hash the candidate key, so they raise
  `TypeError` when `x` is a Python `list` or `dict`; the validator is
  therefore embedded in the `Except String` monad.
* Python floats appear as combat damage totals and as the villager-task
  scaling factor.  Damage totals are sums and products of small integers
  and the constant 1.5, which binary64 represents exactly, so the
  kernel-computable exact fraction type `Frac` below is their faithful
  semantics.  The task rescale `int(n * (total_villagers / total_tasked))`
  is not exact: it divides and then multiplies in IEEE-754 binary64, and
  the result can fall below the exact ratio floor (in Python,
  `int(22 * (15 / 22))` is 14, not 15).  It is embedded bit-exactly by
  `fl_ratio` below, which rounds a rational to 53 significant bits, round
  to nearest with ties to even.  `//` on Python ints is floor division
  (`Int.fdiv`).
* Log messages carry interpolated data; they are embedded as a `LogEvent`
  inductive with one constructor per `add_log` call site, abstracting the
  surrounding message text.
-/

namespace AgeOfAgents

set_option maxRecDepth 10000

/-- Python dict with string keys, as an ordered association list. -/
abbrev Dict (α : Type) := List (String × α)

def dget {α : Type} : Dict α → String → Option α
  | [], _ => none
  | (k, v) :: rest, key => if k = key then some v else dget rest key

def dgetD {α : Type} (d : Dict α) (key : String) (dflt : α) : α :=
  (dget d key).getD dflt

/-- Python `d[key] = v`: update in place if present, else append. -/
def dset {α : Type} : Dict α → String → α → Dict α
  | [], key, v => [(key, v)]
  | (k, w) :: rest, key, v =>
    if k = key then (k, v) :: rest else (k, w) :: dset rest key v

/-- Python `{k: v for k, v in d.items() if v > 0}`. -/
def filter_pos (d : Dict Nat) : Dict Nat := d.filter (fun p => 0 < p.2)

/-! ## Raw (untrusted) values

`PyVal` embeds the JSON-like values an agent can return.  `list` and
`dict` values are unhashable in Python. -/

inductive PyVal where
  | pynone
  | bool (b : Bool)
  | int (n : Int)
  | str (s : String)
  | list (xs : List PyVal)
  | dict (xs : List (PyVal × PyVal))

def hashable : PyVal → Bool
  | .list _ => false
  | .dict _ => false
  | _ => true

/-- Python `raw.get(key, dflt)` on a dict whose lookup key is the string
literal `key` (hashing the stored keys is fine; only non-equal keys are
skipped). -/
def is_str_key (v : PyVal) (key : String) : Bool :=
  match v with
  | .str s => s == key
  | _ => false

def py_get (d : List (PyVal × PyVal)) (key : String) (dflt : PyVal) : PyVal :=
  match d.find? (fun p => is_str_key p.1 key) with
  | some p => p.2
  | none => dflt

/-- Python `x in keys` for a container keyed by strings: raises `TypeError`
when `x` is unhashable, otherwise an equality test (non-string hashables
never equal a string key). -/
def py_mem_str (v : PyVal) (keys : List String) : Except String Bool :=
  if hashable v then
    .ok (match v with
         | .str s => keys.contains s
         | _ => false)
  else
    .error "TypeError: unhashable type"

/-- Python `isinstance(x, int)` (true for bool, a subtype of int). -/
def py_is_int : PyVal → Bool
  | .int _ => true
  | .bool _ => true
  | _ => false

def py_to_int : PyVal → Int
  | .int n => n
  | .bool b => if b then 1 else 0
  | _ => 0

/-- Python truthiness of a raw value. -/
def py_truthy : PyVal → Bool
  | .pynone => false
  | .bool b => b
  | .int n => n != 0
  | .str s => s != ""
  | .list xs => !xs.isEmpty
  | .dict xs => !xs.isEmpty

/-! ## Rules catalog (`config.py`) -/

def TURN_LIMIT : Nat := 50

def ZONES : List String :=
  ["Base_A", "Top_A", "Mid_A", "Bot_A", "Top_B", "Mid_B", "Bot_B", "Base_B"]

def ADJACENCY : Dict (List String) :=
  [("Base_A", ["Top_A", "Mid_A", "Bot_A"]),
   ("Top_A", ["Base_A", "Mid_A", "Top_B"]),
   ("Mid_A", ["Base_A", "Top_A", "Bot_A", "Mid_B"]),
   ("Bot_A", ["Base_A", "Mid_A", "Bot_B"]),
   ("Top_B", ["Top_A", "Mid_B", "Base_B"]),
   ("Mid_B", ["Mid_A", "Top_B", "Bot_B", "Base_B"]),
   ("Bot_B", ["Bot_A", "Mid_B", "Base_B"]),
   ("Base_B", ["Top_B", "Mid_B", "Bot_B"])]

/-- A cost dict: ordered list of (resource, amount) exactly as written in
`config.py` (zero entries included where the source writes them, absent
keys absent). -/
abbrev Cost := List (String × Nat)

def GOLD_TRICKLE : Int := 5

def VILLAGER_TASK_RATE_FOOD : Int := 15
def VILLAGER_TASK_RATE_WOOD : Int := 12
def VILLAGER_TASK_RATE_GOLD : Int := 8
def VILLAGER_IDLE_RATE_FOOD : Int := 3
def VILLAGER_IDLE_RATE_WOOD : Int := 2

def TOWN_CENTER_HP : Int := 200

def AGE_ADVANCE_COSTS (targetAge : Nat) : Cost :=
  match targetAge with
  | 2 => [("food", 400), ("wood", 200)]
  | 3 => [("food", 500), ("wood", 300), ("gold", 200)]
  | 4 => [("wood", 800), ("gold", 500)]
  | _ => []

def UNIT_AGE_REQUIREMENT : Dict Nat :=
  [("Villager", 1), ("Militia", 2), ("Archer", 2), ("Knight", 3), ("Catapult", 3)]

def BUILDING_AGE_REQUIREMENT : Dict Nat :=
  [("Barracks", 2), ("Range", 2), ("Wall", 3), ("Tower", 3), ("Blacksmith", 3)]

structure UnitStats where
  cost : Cost
  hp : Nat
  atk : Nat
  counter : Option String
  train_turns : Nat
deriving DecidableEq

def UNITS : Dict UnitStats :=
  [("Villager", ⟨[("food", 50), ("wood", 0), ("gold", 0)], 5, 1, none, 1⟩),
   ("Militia", ⟨[("food", 60), ("wood", 0), ("gold", 0)], 8, 3, none, 1⟩),
   ("Archer", ⟨[("food", 0), ("wood", 60), ("gold", 0)], 6, 4, some "Infantry", 2⟩),
   ("Knight", ⟨[("food", 0), ("wood", 0), ("gold", 80)], 15, 6, some "Archer", 3⟩),
   ("Catapult", ⟨[("food", 0), ("wood", 50), ("gold", 100)], 10, 12, some "Building", 4⟩)]

def INFANTRY_TYPES : List String := ["Villager", "Militia"]

structure BuildingStats where
  cost : Cost
  hp : Nat
  age : Nat
  damage_per_turn : Nat
deriving DecidableEq

def BUILDINGS : Dict BuildingStats :=
  [("Barracks", ⟨[("food", 0), ("wood", 100), ("gold", 0)], 50, 2, 0⟩),
   ("Range", ⟨[("food", 0), ("wood", 80), ("gold", 0)], 40, 2, 0⟩),
   ("Wall", ⟨[("food", 0), ("wood", 50), ("gold", 0)], 100, 3, 0⟩),
   ("Tower", ⟨[("food", 0), ("wood", 80), ("gold", 50)], 60, 3, 8⟩),
   ("Blacksmith", ⟨[("food", 0), ("wood", 150), ("gold", 100)], 0, 3, 0⟩)]

structure UpgradeStats where
  cost : Cost
  attack_bonus : Nat
  armor_bonus : Nat
  age : Nat
  requires_building : Option String
  requires_upgrade : Option String
deriving DecidableEq

def UPGRADES : Dict UpgradeStats :=
  [("attack_1", ⟨[("food", 200), ("wood", 0), ("gold", 100)], 2, 0, 3, some "Blacksmith", none⟩),
   ("armor_1", ⟨[("food", 0), ("wood", 200), ("gold", 100)], 0, 3, 3, some "Blacksmith", none⟩),
   ("attack_2", ⟨[("food", 0), ("wood", 0), ("gold", 400)], 3, 0, 4, some "Blacksmith", some "attack_1"⟩),
   ("armor_2", ⟨[("food", 0), ("wood", 300), ("gold", 200)], 0, 5, 4, some "Blacksmith", some "armor_1"⟩)]

/-- Exact fraction value, used to embed the engine's Python floats.
Every float the combat code produces is a sum of integer products scaled
by the 1.5 counter bonus — an exact multiple of one half, far below any
IEEE rounding — so real-valued arithmetic is the faithful semantics.
Fractions are kept unnormalised (every constructor below keeps the
denominator positive), which lets the kernel evaluate them. -/
structure Frac where
  num : Int
  den : Nat
deriving DecidableEq

def Frac.ofInt (n : Int) : Frac := ⟨n, 1⟩

def Frac.add (x y : Frac) : Frac := ⟨x.num * y.den + y.num * x.den, x.den * y.den⟩

def Frac.sub (x y : Frac) : Frac := ⟨x.num * y.den - y.num * x.den, x.den * y.den⟩

def Frac.mul (x y : Frac) : Frac := ⟨x.num * y.num, x.den * y.den⟩

/-- Whether the value is ≤ 0 (denominators are positive by construction). -/
def Frac.isNonpos (x : Frac) : Bool := x.num ≤ 0

/-- Whether the value is > 0 (denominators are positive by construction). -/
def Frac.isPos (x : Frac) : Bool := 0 < x.num

/-- Python `x // n` for a float `x` and positive int `n`: the floor of the
exact quotient. -/
def Frac.floorDivNat (x : Frac) (n : Nat) : Int := Int.fdiv x.num (x.den * n)

/-- The rational value of a fraction. -/
def Frac.toRat (x : Frac) : ℚ := (x.num : ℚ) / (x.den : ℚ)

def COUNTER_BONUS : Frac := ⟨3, 2⟩

/-- Lookup helpers with the source's direct-index semantics totalised by a
default (the engine only indexes with names it has already checked are
present). -/
def hp_of (u : String) : Nat := ((dget UNITS u).map UnitStats.hp).getD 0

def atk_of (u : String) : Nat := ((dget UNITS u).map UnitStats.atk).getD 0

def counter_of (u : String) : Option String :=
  ((dget UNITS u).map UnitStats.counter).getD none

/-! ## Player and match state (`engine/state.py`) -/

/-- The resource ledger; all three counters always present.
Integers because the code can (and, per claim C1, does) drive them
negative. -/
structure Resources where
  food : Int
  wood : Int
  gold : Int
deriving DecidableEq

def res_get (r : Resources) (key : String) : Int :=
  if key = "food" then r.food
  else if key = "wood" then r.wood
  else if key = "gold" then r.gold
  else 0

def res_set (r : Resources) (key : String) (v : Int) : Resources :=
  if key = "food" then { r with food := v }
  else if key = "wood" then { r with wood := v }
  else if key = "gold" then { r with gold := v }
  else r

/-- `_can_afford`: all cost keys (and only those) checked against the ledger. -/
def can_afford (r : Resources) (c : Cost) : Bool :=
  c.all (fun p => (p.2 : Int) ≤ res_get r p.1)

/-- One cost deduction as the `for res, amount in cost.items()` loops do;
returns the new ledger (the caller separately bumps `resources_banked` by
the sum of the amounts). -/
def deduct_cost (r : Resources) (c : Cost) : Resources :=
  c.foldl (fun acc p => res_set acc p.1 (res_get acc p.1 - p.2)) r

def cost_total (c : Cost) : Nat := c.foldl (fun s p => s + p.2) 0

/-- `_max_affordable`. `//` on Python ints is floor division. -/
def max_affordable (r : Resources) (c : Cost) (requested : Int) : Int :=
  max 0 (c.foldl
    (fun m p => if 0 < p.2 then min m (Int.fdiv (res_get r p.1) p.2) else m)
    requested)

/-- Sanitised villager-task assignment: only the three resource kinds can
occur, so it is a record (absent key = 0; the validator removes zero
entries, which the record embedding cannot distinguish from absence —
income and all claims depend only on the values). -/
structure Tasks where
  food : Nat
  wood : Nat
  gold : Nat
deriving DecidableEq

def Tasks.total (t : Tasks) : Nat := t.food + t.wood + t.gold

def Tasks.empty : Tasks := ⟨0, 0, 0⟩

structure TrainItem where
  unit : String
  count : Nat
deriving DecidableEq

structure MoveItem where
  unit : String
  count : Nat
  fromZone : String
  toZone : String
deriving DecidableEq

structure PlayerState where
  player_id : String
  base_zone : String
  resources : Resources
  units : Dict (Dict Nat)
  buildings : Dict (List String)
  town_center_hp : Int
  production_queue : List (String × Nat)
  resources_banked : Nat
  age : Nat
  villager_tasks : Tasks
  building_hp : Dict (Dict Int)
  upgrades : List String
  attack_bonus : Nat
  armor_bonus : Nat
  units_killed : Nat
  units_lost : Nat
deriving DecidableEq

def PlayerState.unit_count (p : PlayerState) (zone unit : String) : Nat :=
  dgetD (dgetD p.units zone []) unit 0

def PlayerState.any_building (p : PlayerState) (building : String) : Bool :=
  p.buildings.any (fun z => z.2.contains building)

/-- `PlayerState.__post_init__` seeded state: every zone present in every
per-zone mapping, three villagers in the home base. -/
def init_player (pid bz : String) : PlayerState :=
  { player_id := pid
    base_zone := bz
    resources := ⟨200, 150, 50⟩
    units := ZONES.map (fun z => (z, if z = bz then [("Villager", 3)] else []))
    buildings := ZONES.map (fun z => (z, []))
    town_center_hp := TOWN_CENTER_HP
    production_queue := []
    resources_banked := 0
    age := 1
    villager_tasks := Tasks.empty
    building_hp := ZONES.map (fun z => (z, []))
    upgrades := []
    attack_bonus := 0
    armor_bonus := 0
    units_killed := 0
    units_lost := 0 }

/-- One `gs.add_log` call site per constructor; fields are the values the
source interpolates into the message. -/
inductive LogEvent where
  | income (pid : String) (foodGain woodGain goldGain food wood gold : Int)
  | trainedUnit (pid unit zone : String)
  | actionsSummary (pid : String) (train : List TrainItem) (build : List String)
      (move : List MoveItem)
  | advancedAge (pid : String) (age : Nat)
  | taskedVillagers (pid : String) (tasks : Tasks)
  | researched (pid upgrade : String) (atkBonus armBonus : Nat)
  | built (pid building zone : String)
  | queuedTrain (pid : String) (count : Nat) (unit : String) (turns : Nat)
  | movedUnits (pid : String) (count : Nat) (unit fromZone toZone : String)
  | combatStart (zone : String) (ua ub : Dict Nat)
  | towerFire (pid : String) (towers : Nat) (zone : String) (dmg : Nat)
  | lostUnits (pid : String) (count : Nat) (unit zone : String)
  | wallDestroyed (attacker defender zone : String)
  | wallAbsorbed (defender : String) (hpLeft : Int)
  | tcHit (attacker : String) (units : Dict Nat) (defender : String)
      (dmg : Int) (tcHp : Int)
deriving DecidableEq

structure GameState where
  turn : Nat
  pA : PlayerState
  pB : PlayerState
  log : List (Nat × LogEvent)
  winner : Option String
deriving DecidableEq

def GameState.new_game : GameState :=
  { turn := 1
    pA := init_player "A" "Base_A"
    pB := init_player "B" "Base_B"
    log := []
    winner := none }

def get_player (gs : GameState) (pid : String) : PlayerState :=
  if pid = "A" then gs.pA else gs.pB

def set_player (gs : GameState) (pid : String) (p : PlayerState) : GameState :=
  if pid = "A" then { gs with pA := p } else { gs with pB := p }

def upd_player (gs : GameState) (pid : String) (f : PlayerState → PlayerState) :
    GameState :=
  set_player gs pid (f (get_player gs pid))

def opponent (pid : String) : String := if pid = "A" then "B" else "A"

def add_log (gs : GameState) (e : LogEvent) : GameState :=
  { gs with log := gs.log ++ [(gs.turn, e)] }

/-! ## Validator (`engine/validator.py`)

The validator is embedded in `Except String` because Python membership
tests such as `unit not in UNITS` hash the candidate and raise `TypeError`
when the raw value is an (unhashable) list or dict. -/

/-- The sanitised command with its seven fixed fields.  `attack` is always
set to the empty list by the validator; its element type never
materialises, so plain strings stand in for it. -/
structure Action where
  train : List TrainItem
  build : List String
  move : List MoveItem
  attack : List String
  advance_age : Bool
  task_villagers : Tasks
  research : List String
deriving DecidableEq

def EMPTY_ACTION : Action :=
  { train := [], build := [], move := [], attack := [], advance_age := false
    task_villagers := Tasks.empty, research := [] }

/-- One iteration of the `_validate_train` loop; `none` is `continue`. -/
def validate_train_item (p : PlayerState) (item : PyVal) :
    Except String (Option TrainItem) :=
  match item with
  | .dict d =>
    let unit := py_get d "unit" .pynone
    let count := py_get d "count" (.int 1)
    (py_mem_str unit (UNITS.map Prod.fst)).map (fun inUnits =>
      if !inUnits then none
      else
        let uname := match unit with | .str s => s | _ => ""
        if !(py_is_int count) then none
        else if py_to_int count < 1 then none
        else if p.age < dgetD UNIT_AGE_REQUIREMENT uname 1 then none
        else if (uname = "Militia" ∨ uname = "Knight") ∧
                 !(p.any_building "Barracks") then none
        else if uname = "Archer" ∧ !(p.any_building "Range") then none
        else
          let cost := ((dget UNITS uname).map UnitStats.cost).getD []
          let ma := max_affordable p.resources cost (py_to_int count)
          if ma < 1 then none
          else some ⟨uname, ma.toNat⟩)
  | _ => .ok none

def validate_train_list (p : PlayerState) : List PyVal → Except String (List TrainItem)
  | [] => .ok []
  | x :: rest => do
    let r ← validate_train_item p x
    let others ← validate_train_list p rest
    match r with
    | some t => .ok (t :: others)
    | none => .ok others

def validate_train (items : PyVal) (p : PlayerState) : Except String (List TrainItem) :=
  match items with
  | .list xs => validate_train_list p xs
  | _ => .ok []

def validate_build_item (p : PlayerState) (item : PyVal) :
    Except String (Option String) :=
  match item with
  | .dict d =>
    let building := py_get d "building" .pynone
    (py_mem_str building (BUILDINGS.map Prod.fst)).map (fun inB =>
      if !inB then none
      else
        let bname := match building with | .str s => s | _ => ""
        if p.age < dgetD BUILDING_AGE_REQUIREMENT bname 1 then none
        else
          let cost := ((dget BUILDINGS bname).map BuildingStats.cost).getD []
          if !(can_afford p.resources cost) then none
          else some bname)
  | _ => .ok none

def validate_build_list (p : PlayerState) : List PyVal → Except String (List String)
  | [] => .ok []
  | x :: rest => do
    let r ← validate_build_item p x
    let others ← validate_build_list p rest
    match r with
    | some b => .ok (b :: others)
    | none => .ok others

def validate_build (items : PyVal) (p : PlayerState) : Except String (List String) :=
  match items with
  | .list xs => validate_build_list p xs
  | _ => .ok []

def validate_move_item (p : PlayerState) (item : PyVal) :
    Except String (Option MoveItem) :=
  match item with
  | .dict d => do
    let unit := py_get d "unit" .pynone
    let count := py_get d "count" (.int 1)
    let fromZone := py_get d "from" .pynone
    let toZone := py_get d "to" .pynone
    let inUnits ← py_mem_str unit (UNITS.map Prod.fst)
    if !inUnits then return none
    let inFrom ← py_mem_str fromZone ZONES
    if !inFrom then return none
    let inTo ← py_mem_str toZone ZONES
    if !inTo then return none
    let uname := match unit with | .str s => s | _ => ""
    let fz := match fromZone with | .str s => s | _ => ""
    let tz := match toZone with | .str s => s | _ => ""
    if !((dgetD ADJACENCY fz []).contains tz) then return none
    if !(py_is_int count) then return none
    if py_to_int count < 1 then return none
    let available := p.unit_count fz uname
    if available < 1 then return none
    return some ⟨uname, (min (py_to_int count) (available : Int)).toNat, fz, tz⟩
  | _ => .ok none

def validate_move_list (p : PlayerState) : List PyVal → Except String (List MoveItem)
  | [] => .ok []
  | x :: rest => do
    let r ← validate_move_item p x
    let others ← validate_move_list p rest
    match r with
    | some m => .ok (m :: others)
    | none => .ok others

def validate_move (items : PyVal) (p : PlayerState) : Except String (List MoveItem) :=
  match items with
  | .list xs => validate_move_list p xs
  | _ => .ok []

def validate_advance_age (flag : PyVal) (p : PlayerState) : Bool :=
  if !(py_truthy flag) then false
  else if 4 ≤ p.age then false
  else can_afford p.resources (AGE_ADVANCE_COSTS (p.age + 1))

def total_villagers (p : PlayerState) : Nat :=
  p.units.foldl (fun s z => s + dgetD z.2 "Villager" 0) 0

/-- The loop of `_validate_task_villagers` collecting `cleaned`
(`cleaned[res] = count`, last assignment wins). -/
def collect_tasks : List (PyVal × PyVal) → Tasks → Except String Tasks
  | [], acc => .ok acc
  | (res, count) :: rest, acc => do
    let inValid ← py_mem_str res ["food", "wood", "gold"]
    if !inValid then collect_tasks rest acc
    else if !(py_is_int count) then collect_tasks rest acc
    else if py_to_int count < 0 then collect_tasks rest acc
    else
      let rname := match res with | .str s => s | _ => ""
      let n := (py_to_int count).toNat
      collect_tasks rest
        (if rname = "food" then { acc with food := n }
         else if rname = "wood" then { acc with wood := n }
         else { acc with gold := n })

/-! ### Binary64 model for the task rescale

Both `_validate_task_villagers` and `_apply_income` compute
`int(n * (total_villagers / total_tasked))` with Python floats.  CPython's
`int / int` true division returns the binary64 double nearest the exact
quotient, ties to even; `int * float` converts the `int` to a double
(exact below `2^53`, far beyond any reachable count) and rounds the exact
product the same way.  All values involved sit deep inside the binary64
normal range, so overflow and subnormals cannot occur, and a double is
just an exact dyadic rational.  The model rounds a ratio `a / b` to 53
significant bits: `fl_exp a b` finds the least `m` with
`2^52 * b ≤ a * 2^m` by bounded search (fuel 256 covers every
`b < 2^200`), so that the significand `a * 2^m / b` lies in
`[2^52, 2^53)` whenever `a / b < 2^53`, and `rnd_half_even` rounds that
significand to the nearest integer, ties to even. -/

def fl_exp_go (a b : Nat) : Nat → Nat → Nat
  | 0, m => m
  | fuel + 1, m => if 2 ^ 52 * b ≤ a * 2 ^ m then m else fl_exp_go a b fuel (m + 1)

/-- Least `m` with `2^52 * b ≤ a * 2^m` (for `0 < a` and `b < 2^200`). -/
def fl_exp (a b : Nat) : Nat :=
  fl_exp_go a b 256 0

/-- Round `num / den` to the nearest integer, ties to even. -/
def rnd_half_even (num den : Nat) : Nat :=
  if 2 * (num % den) < den then num / den
  else if den < 2 * (num % den) then num / den + 1
  else if num / den % 2 = 0 then num / den else num / den + 1

/-- The binary64 double nearest `a / b` (ties to even), as an exact
dyadic pair `(r, m)` denoting `r / 2^m`; `0 / b` is `0.0`. -/
def fl_ratio (a b : Nat) : Nat × Nat :=
  if a = 0 then (0, 0)
  else (rnd_half_even (a * 2 ^ fl_exp a b) b, fl_exp a b)

/-- Python `int(n * scale)` with `scale = total_villagers / total_tasked`,
computed in binary64: `scale` is the double nearest `tv / tt`, the
product `n * scale` rounds again to the nearest double `p.1 / 2^p.2`, and
`int` truncates (the values are non-negative, so truncation is the
floor `p.1 / 2^p.2` in natural division).  This can fall below the exact
ratio floor: `scaled_entry 22 15 22 = 14` while `22 * 15 / 22 = 15`. -/
def scaled_entry (n tv tt : Nat) : Nat :=
  let s := fl_ratio tv tt
  let p := fl_ratio (n * s.1) (2 ^ s.2)
  p.1 / 2 ^ p.2

def scale_tasks (t : Tasks) (tv tt : Nat) : Tasks :=
  ⟨scaled_entry t.food tv tt, scaled_entry t.wood tv tt, scaled_entry t.gold tv tt⟩

/-- The rescale step of `_validate_task_villagers`
(`if total_tasked > total_villagers and total_tasked > 0`); the final
removal of zero entries is the identity on the record embedding. -/
def validator_rescale (t : Tasks) (tv : Nat) : Tasks :=
  let tt := t.total
  if tv < tt ∧ 0 < tt then scale_tasks t tv tt else t

def validate_task_villagers (tasks : PyVal) (p : PlayerState) : Except String Tasks :=
  match tasks with
  | .dict d =>
    (collect_tasks d Tasks.empty).map
      (fun cleaned => validator_rescale cleaned (total_villagers p))
  | _ => .ok Tasks.empty

def validate_research_item (p : PlayerState) (item : PyVal) :
    Except String (Option String) :=
  match item with
  | .dict d =>
    let upgradeName := py_get d "upgrade" .pynone
    (py_mem_str upgradeName (UPGRADES.map Prod.fst)).map (fun inU =>
      if !inU then none
      else
        let uname := match upgradeName with | .str s => s | _ => ""
        if p.upgrades.contains uname then none
        else
          match dget UPGRADES uname with
          | none => none
          | some upg =>
            if p.age < upg.age then none
            else if (match upg.requires_building with
                     | some rb => !(p.any_building rb)
                     | none => false) then none
            else if (match upg.requires_upgrade with
                     | some ru => !(p.upgrades.contains ru)
                     | none => false) then none
            else if !(can_afford p.resources upg.cost) then none
            else some uname)
  | _ => .ok none

def validate_research_list (p : PlayerState) : List PyVal → Except String (List String)
  | [] => .ok []
  | x :: rest => do
    let r ← validate_research_item p x
    let others ← validate_research_list p rest
    match r with
    | some u => .ok (u :: others)
    | none => .ok others

def validate_research (items : PyVal) (p : PlayerState) : Except String (List String) :=
  match items with
  | .list xs => validate_research_list p xs
  | _ => .ok []

/-- `validate_action`: sanitise a raw command against the player's state.
The `turn` parameter is accepted and unused, as in the source. -/
def validate_action (raw : PyVal) (p : PlayerState) (_turn : Nat) : Except String Action :=
  match raw with
  | .dict d => do
    let train ← validate_train (py_get d "train" (.list [])) p
    let build ← validate_build (py_get d "build" (.list [])) p
    let move ← validate_move (py_get d "move" (.list [])) p
    let adv := validate_advance_age (py_get d "advance_age" (.bool false)) p
    let tasks ← validate_task_villagers (py_get d "task_villagers" (.dict [])) p
    let research ← validate_research (py_get d "research" (.list [])) p
    .ok { train := train, build := build, move := move, attack := []
          advance_age := adv, task_villagers := tasks, research := research }
  | _ => .ok EMPTY_ACTION

/-! ## Combat resolver (`engine/combat.py`)

Damage totals are Python floats; every value produced is an integer
multiple of 1/2 (sums of int products, scaled by the 1.5 counter bonus),
so the embedding uses exact rationals.  `remaining // unit_hp` is float
floor division, embedded as the rational floor. -/

/-- Stable descending sort of unit-type names by a key, as
`sorted(keys, key=..., reverse=True)` (ties keep list order; unit hit
points are in fact pairwise distinct). -/
def insert_desc (key : String → Nat) (x : String) : List String → List String
  | [] => [x]
  | y :: ys => if key y < key x then x :: y :: ys else y :: insert_desc key x ys

def sort_desc (key : String → Nat) : List String → List String
  | [] => []
  | x :: xs => insert_desc key x (sort_desc key xs)

/-- The loop body of `_apply_damage`: walk the types tankiest-first,
consuming whole kills plus at most one partial kill per type, stopping
when damage is exhausted.  Returns the updated unit dict and the ordered
list of (type, units killed) for logging and the loss counters. -/
def distribute_damage (armor : Nat) :
    List String → Dict Nat → Frac → Dict Nat × List (String × Nat)
  | [], cu, _ => (cu, [])
  | u :: rest, cu, remaining =>
    if remaining.isNonpos then (cu, [])
    else
      let count := dgetD cu u 0
      let unitHp : Nat := hp_of u + armor
      let kills0 := min count (remaining.floorDivNat unitHp).toNat
      let rem1 := remaining.sub (Frac.ofInt ((kills0 * unitHp : Nat) : Int))
      let killsRem :=
        if rem1.isPos ∧ kills0 < count then (kills0 + 1, Frac.ofInt 0) else (kills0, rem1)
      let actual := min killsRem.1 count
      let next := distribute_damage armor rest (dset cu u (count - actual)) killsRem.2
      (next.1, if 0 < actual then (u, actual) :: next.2 else next.2)

/-- Log one loss and bump the two cumulative kill counters, as the body of
the `_apply_damage` loop does (`opponent_pid` is derived from the damaged
player's identity tag). -/
def record_kill (gs : GameState) (pid zone : String) (k : String × Nat) : GameState :=
  let pidTag := (get_player gs pid).player_id
  let opp := if pidTag = "A" then "B" else "A"
  let gs1 := add_log gs (.lostUnits pidTag k.2 k.1 zone)
  let gs2 := upd_player gs1 pid (fun p => { p with units_lost := p.units_lost + k.2 })
  upd_player gs2 opp (fun p => { p with units_killed := p.units_killed + k.2 })

/-- `_apply_damage`: distribute, log/count the kills in order, then write
the updated counts back into `player.units[zone]`. -/
def apply_damage (gs : GameState) (pid zone : String) (cu : Dict Nat)
    (damage : Frac) (armor : Nat) : GameState :=
  let sorted := sort_desc hp_of (cu.map Prod.fst)
  let res := distribute_damage armor sorted cu damage
  let gs1 := res.2.foldl (fun g k => record_kill g pid zone k) gs
  upd_player gs1 pid (fun p =>
    let zoneUnits := res.1.foldl (fun z q => dset z q.1 q.2) (dgetD p.units zone [])
    { p with units := dset p.units zone zoneUnits })

/-- `_compute_total_damage`: per attacking type,
`(base attack + attack bonus) × count × counter multiplier`. -/
def compute_total_damage (attackers defenders : Dict Nat) (attack_bonus : Nat) : Frac :=
  attackers.foldl (fun total p =>
    let baseAtk : Nat := atk_of p.1 + attack_bonus
    let baseDmg : Frac := Frac.ofInt ((baseAtk * p.2 : Nat) : Int)
    let bonus : Frac :=
      match counter_of p.1 with
      | some c =>
        if c = "Infantry" then
          (if defenders.any (fun q => INFANTRY_TYPES.contains q.1) then COUNTER_BONUS
           else Frac.ofInt 1)
        else (if (dget defenders c).isSome then COUNTER_BONUS else Frac.ofInt 1)
      | none => Frac.ofInt 1
    total.add (baseDmg.mul bonus)) (Frac.ofInt 0)

/-- The damage sum of `_base_attack`:
`sum(UNITS[utype]["atk"] * count for utype, count in ... if count > 0)`. -/
def siege_damage (units : Dict Nat) : Int :=
  units.foldl (fun s p => if 0 < p.2 then s + (atk_of p.1 : Int) * p.2 else s) 0

/-- `_base_attack`: summed unmodified base attacks, absorbed by the Wall's
remaining HP first, remainder to the town center clamped at zero. -/
def base_attack (gs : GameState) (attacker_units : Dict Nat)
    (attacker_pid defender_pid zone : String) : GameState :=
  let dmg : Int := siege_damage attacker_units
  if dmg ≤ 0 then gs
  else
    let defender := get_player gs defender_pid
    let wallHp := dgetD (dgetD defender.building_hp zone []) "Wall" 0
    let step1 :=
      if 0 < wallHp then
        let absorbed := min dmg wallHp
        let dmgA := dmg - absorbed
        let wallA := wallHp - absorbed
        if wallA ≤ 0 then
          let g := upd_player gs defender_pid (fun p =>
            let newHp := dset p.building_hp zone (dset (dgetD p.building_hp zone []) "Wall" 0)
            let p1 := { p with building_hp := newHp }
            if (dgetD p1.buildings zone []).contains "Wall" then
              let newB := dset p1.buildings zone ((dgetD p1.buildings zone []).erase "Wall")
              { p1 with buildings := newB }
            else p1)
          (add_log g (.wallDestroyed attacker_pid defender.player_id zone), dmgA)
        else
          let g := upd_player gs defender_pid (fun p =>
            let newHp := dset p.building_hp zone (dset (dgetD p.building_hp zone []) "Wall" wallA)
            { p with building_hp := newHp })
          (add_log g (.wallAbsorbed defender.player_id wallA), dmgA)
      else (gs, dmg)
    if 0 < step1.2 then
      let defender1 := get_player step1.1 defender_pid
      let newTc := max 0 (defender1.town_center_hp - step1.2)
      let gs2 := upd_player step1.1 defender_pid (fun p => { p with town_center_hp := newTc })
      add_log gs2 (.tcHit attacker_pid attacker_units defender1.player_id step1.2 newTc)
    else step1.1

/-- The second `if` of `_handle_base_attack`: B's units alone in A's base. -/
def handle_base_attack_second (gs : GameState) (zone : String)
    (units_a units_b : Dict Nat) : GameState :=
  if zone = gs.pA.base_zone ∧ !units_b.isEmpty ∧ units_a.isEmpty then
    base_attack gs units_b "B" "A" zone
  else gs

/-- `_handle_base_attack`: siege fires only for units alone in the
opponent's base zone; the two directional checks run in sequence. -/
def handle_base_attack (gs : GameState) (zone : String)
    (units_a units_b : Dict Nat) : GameState :=
  if zone = gs.pB.base_zone ∧ !units_a.isEmpty ∧ units_b.isEmpty then
    handle_base_attack_second (base_attack gs units_a "A" "B" zone) zone units_a units_b
  else
    handle_base_attack_second gs zone units_a units_b

def tower_dpt : Nat := ((dget BUILDINGS "Tower").map BuildingStats.damage_per_turn).getD 0

/-- One half of `_apply_tower_damage`: the `firing` player's towers in the
zone fire `count × damage_per_turn` at the `target` player's units there,
with the target's armor bonus. -/
def tower_fire_once (gs : GameState) (firing target zone : String) : GameState :=
  if 0 < (dgetD (get_player gs firing).buildings zone []).count "Tower" then
    if !(filter_pos (dgetD (get_player gs target).units zone [])).isEmpty then
      apply_damage
        (add_log gs (.towerFire firing
          ((dgetD (get_player gs firing).buildings zone []).count "Tower") zone
          ((dgetD (get_player gs firing).buildings zone []).count "Tower" * tower_dpt)))
        target zone (filter_pos (dgetD (get_player gs target).units zone []))
        (Frac.ofInt (((dgetD (get_player gs firing).buildings zone []).count "Tower"
            * tower_dpt : Nat) : Int))
        (get_player gs target).armor_bonus
    else gs
  else gs

/-- `_apply_tower_damage`: A's towers fire at B's units, then B's towers
(at the state after A's volley) fire at A's units. -/
def apply_tower_damage (gs : GameState) (zone : String) : GameState :=
  tower_fire_once (tower_fire_once gs "A" "B" zone) "B" "A" zone

/-- The field-combat lines of `resolve_combat` (lines 32-39): log, compute
both totals from the pre-round dicts, then apply both. -/
def field_phase (gs : GameState) (zone : String) (units_a units_b : Dict Nat) : GameState :=
  let gs1 := add_log gs (.combatStart zone units_a units_b)
  let dmgToB := compute_total_damage units_a units_b gs.pA.attack_bonus
  let dmgToA := compute_total_damage units_b units_a gs.pB.attack_bonus
  let gs2 := apply_damage gs1 "A" zone units_a dmgToA gs1.pA.armor_bonus
  apply_damage gs2 "B" zone units_b dmgToB gs2.pB.armor_bonus

/-- `resolve_combat`: tower fire, then field combat if both sides remain,
then base siege on the refreshed (post-combat) occupancy. -/
def resolve_combat (gs : GameState) (zone : String) : GameState :=
  let gs1 := apply_tower_damage gs zone
  let unitsA := filter_pos (dgetD gs1.pA.units zone [])
  let unitsB := filter_pos (dgetD gs1.pB.units zone [])
  if unitsA.isEmpty ∨ unitsB.isEmpty then
    handle_base_attack gs1 zone unitsA unitsB
  else
    let gs2 := field_phase gs1 zone unitsA unitsB
    handle_base_attack gs2 zone (filter_pos (dgetD gs2.pA.units zone []))
      (filter_pos (dgetD gs2.pB.units zone []))

/-! ## Effect appliers (`engine/resolver.py`) -/

def process_advance_age (gs : GameState) (pid : String) (a : Action) : GameState :=
  if !a.advance_age then gs
  else
    let player := get_player gs pid
    let nextAge := player.age + 1
    let cost := AGE_ADVANCE_COSTS nextAge
    if !(can_afford player.resources cost) then gs
    else
      let gs1 := upd_player gs pid (fun p =>
        { p with resources := deduct_cost p.resources cost
                 resources_banked := p.resources_banked + cost_total cost
                 age := nextAge })
      add_log gs1 (.advancedAge pid nextAge)

def process_task_villagers (gs : GameState) (pid : String) (a : Action) : GameState :=
  if a.task_villagers = Tasks.empty then gs
  else
    let gs1 := upd_player gs pid (fun p => { p with villager_tasks := a.task_villagers })
    add_log gs1 (.taskedVillagers pid a.task_villagers)

def process_research_step (pid : String) (gs : GameState) (upgradeName : String) : GameState :=
  match dget UPGRADES upgradeName with
  | none => gs
  | some upg =>
    if (get_player gs pid).upgrades.contains upgradeName then gs
    else if !(can_afford (get_player gs pid).resources upg.cost) then gs
    else
      let gs1 := upd_player gs pid (fun p =>
        { p with resources := deduct_cost p.resources upg.cost
                 resources_banked := p.resources_banked + cost_total upg.cost
                 upgrades := p.upgrades ++ [upgradeName]
                 attack_bonus := p.attack_bonus + upg.attack_bonus
                 armor_bonus := p.armor_bonus + upg.armor_bonus })
      add_log gs1 (.researched pid upgradeName upg.attack_bonus upg.armor_bonus)

def process_research (gs : GameState) (pid : String) (a : Action) : GameState :=
  a.research.foldl (process_research_step pid) gs

/-- One `_process_builds` iteration: checks affordability against the
current (never locally deducted) ledger, appends the building to the
player's base zone, pools Wall/Tower HP there. -/
def process_build_step (pid : String) (gs : GameState) (building : String) : GameState :=
  match dget BUILDINGS building with
  | none => gs
  | some bstats =>
    if !(can_afford (get_player gs pid).resources bstats.cost) then gs
    else
      let gs1 := upd_player gs pid (fun p =>
        let bz := p.base_zone
        let newB := dset p.buildings bz ((dgetD p.buildings bz []) ++ [building])
        let p1 := { p with buildings := newB }
        if building = "Wall" ∨ building = "Tower" then
          let zoneHp := dgetD p1.building_hp bz []
          let newHp := dset p1.building_hp bz
            (dset zoneHp building (dgetD zoneHp building (0 : Int) + (bstats.hp : Int)))
          { p1 with building_hp := newHp }
        else p1)
      add_log gs1 (.built pid building (get_player gs1 pid).base_zone)

def process_builds (gs : GameState) (pid : String) (a : Action) : GameState :=
  a.build.foldl (process_build_step pid) gs

/-- The per-unit loop of `_process_trains`: re-check, deduct, queue, stop
at the first unit that is no longer affordable. -/
def train_one_loop (cost : Cost) (unit : String) (turns : Nat) :
    Nat → PlayerState → PlayerState
  | 0, p => p
  | n + 1, p =>
    if !(can_afford p.resources cost) then p
    else
      train_one_loop cost unit turns n
        { p with resources := deduct_cost p.resources cost
                 resources_banked := p.resources_banked + cost_total cost
                 production_queue := p.production_queue ++ [(unit, turns)] }

def process_train_step (pid : String) (gs : GameState) (item : TrainItem) : GameState :=
  match dget UNITS item.unit with
  | none => gs
  | some ustats =>
    let gs1 := upd_player gs pid
      (fun p => train_one_loop ustats.cost item.unit ustats.train_turns item.count p)
    add_log gs1 (.queuedTrain pid item.count item.unit ustats.train_turns)

def process_trains (gs : GameState) (pid : String) (a : Action) : GameState :=
  a.train.foldl (process_train_step pid) gs

/-- `deduct_costs` (validator.py): deduct the full cost of every validated
build entry, with no affordability re-check. -/
def deduct_costs (gs : GameState) (pid : String) (a : Action) : GameState :=
  a.build.foldl (fun g building =>
    match dget BUILDINGS building with
    | none => g
    | some bstats =>
      upd_player g pid (fun p =>
        { p with resources := deduct_cost p.resources bstats.cost
                 resources_banked := p.resources_banked + cost_total bstats.cost })) gs

def process_move_step (pid : String) (gs : GameState) (item : MoveItem) : GameState :=
  let player := get_player gs pid
  let available := dgetD (dgetD player.units item.fromZone []) item.unit 0
  let actual := min item.count available
  if actual < 1 then gs
  else
    let gs1 := upd_player gs pid (fun p =>
      let fromUnits := dset (dgetD p.units item.fromZone []) item.unit (available - actual)
      let u1 := dset p.units item.fromZone fromUnits
      let toUnits := dgetD u1 item.toZone []
      { p with units := dset u1 item.toZone
                  (dset toUnits item.unit (dgetD toUnits item.unit 0 + actual)) })
    add_log gs1 (.movedUnits pid actual item.unit item.fromZone item.toZone)

def process_moves (gs : GameState) (pid : String) (a : Action) : GameState :=
  a.move.foldl (process_move_step pid) gs

/-! ## Economy engine (`engine/economy.py`) -/

/-- The reconciliation step at the top of `_apply_income`
(`if total_tasked > total_villagers and total_villagers > 0` scale;
`elif total_villagers == 0` clear). -/
def reconcile_tasks (t : Tasks) (tv : Nat) : Tasks :=
  let tt := t.total
  if tv < tt ∧ 0 < tv then scale_tasks t tv tt
  else if tv = 0 then Tasks.empty
  else t

def apply_income (gs : GameState) (pid : String) : GameState :=
  let player := get_player gs pid
  let tv := total_villagers player
  let tasks := reconcile_tasks player.villager_tasks tv
  let idle : Int := max 0 ((tv : Int) - tasks.total)
  let foodGain := (tasks.food : Int) * VILLAGER_TASK_RATE_FOOD + idle * VILLAGER_IDLE_RATE_FOOD
  let woodGain := (tasks.wood : Int) * VILLAGER_TASK_RATE_WOOD + idle * VILLAGER_IDLE_RATE_WOOD
  let goldGain := (tasks.gold : Int) * VILLAGER_TASK_RATE_GOLD + GOLD_TRICKLE
  let gs1 := upd_player gs pid (fun p =>
    { p with resources := ⟨p.resources.food + foodGain, p.resources.wood + woodGain,
                           p.resources.gold + goldGain⟩ })
  let newRes := (get_player gs1 pid).resources
  add_log gs1 (.income pid foodGain woodGain goldGain newRes.food newRes.wood newRes.gold)

def graduate (gs : GameState) (pid unit : String) : GameState :=
  let player := get_player gs pid
  let gs1 := upd_player gs pid (fun p =>
    let zoneUnits := dgetD p.units p.base_zone []
    { p with units := dset p.units p.base_zone
                (dset zoneUnits unit (dgetD zoneUnits unit 0 + 1)) })
  add_log gs1 (.trainedUnit player.player_id unit player.base_zone)

def decrement_queue_loop (pid : String) :
    GameState → List (String × Nat) → GameState × List (String × Nat)
  | gs, [] => (gs, [])
  | gs, (unit, turnsLeft) :: rest =>
    if turnsLeft ≤ 1 then
      decrement_queue_loop pid (graduate gs pid unit) rest
    else
      let res := decrement_queue_loop pid gs rest
      (res.1, (unit, turnsLeft - 1) :: res.2)

def decrement_queue (gs : GameState) (pid : String) : GameState :=
  let res := decrement_queue_loop pid gs (get_player gs pid).production_queue
  upd_player res.1 pid (fun p => { p with production_queue := res.2 })

def economy_tick (gs : GameState) : GameState :=
  let gs1 := decrement_queue (apply_income gs "A") "A"
  decrement_queue (apply_income gs1 "B") "B"

/-! ## Turn pipeline (`run_turn`, steps 4-8)

Economy (step 1) runs before the raw commands exist; the decision calls
(steps 2-3) are external.  `post_decision_phase` embeds validation, the
two post-validation summary log lines, the fixed effect sub-order, and
combat over all zones in the fixed zone order.  A `TypeError` raised by
the validator propagates (there is no handler in `run_turn`). -/

def turn_effects_and_combat (gs0 : GameState) (aA aB : Action) : GameState :=
  let gs1 := add_log gs0 (.actionsSummary "A" aA.train aA.build aA.move)
  let gs2 := add_log gs1 (.actionsSummary "B" aB.train aB.build aB.move)
  let gs3 := process_advance_age (process_advance_age gs2 "A" aA) "B" aB
  let gs4 := process_task_villagers (process_task_villagers gs3 "A" aA) "B" aB
  let gs5 := process_research (process_research gs4 "A" aA) "B" aB
  let gs6 := process_builds (process_builds gs5 "A" aA) "B" aB
  let gs7 := process_trains (process_trains gs6 "A" aA) "B" aB
  let gs8 := deduct_costs (deduct_costs gs7 "A" aA) "B" aB
  let gs9 := process_moves (process_moves gs8 "A" aA) "B" aB
  ZONES.foldl resolve_combat gs9

def post_decision_phase (gs : GameState) (rawA rawB : PyVal) : Except String GameState := do
  let aA ← validate_action rawA gs.pA gs.turn
  let aB ← validate_action rawB gs.pB gs.turn
  .ok (turn_effects_and_combat gs aA aB)

/-! ## Basic lemmas about the dict embedding -/

theorem dget_dset {α : Type} (d : Dict α) (k k' : String) (v : α) :
    dget (dset d k v) k' = if k = k' then some v else dget d k' := by
  induction d with
  | nil =>
    by_cases h : k = k' <;> simp [dset, dget, h]
  | cons hd tl ih =>
    obtain ⟨hk, hv⟩ := hd
    by_cases h1 : hk = k
    · subst h1
      by_cases h2 : hk = k' <;> simp [dset, dget, h2]
    · by_cases h2 : hk = k'
      · subst h2
        have hne : k ≠ hk := fun h => h1 h.symm
        simp [dset, dget, h1, hne]
      · simp [dset, dget, h1, h2, ih]

theorem dget_dset_self {α : Type} (d : Dict α) (k : String) (v : α) :
    dget (dset d k v) k = some v := by
  simp [dget_dset]

theorem dget_dset_ne {α : Type} (d : Dict α) (k k' : String) (v : α) (h : k ≠ k') :
    dget (dset d k v) k' = dget d k' := by
  simp [dget_dset, h]

theorem dgetD_dset_ne {α : Type} (d : Dict α) (k k' : String) (v dflt : α) (h : k ≠ k') :
    dgetD (dset d k v) k' dflt = dgetD d k' dflt := by
  simp [dgetD, dget_dset_ne, h]

/-! ## Verification of the claims -/

/-- Player A one age up (age 2, reachable by advancing), otherwise the
default starting state: food 200, wood 150, gold 50. -/
def c1_gs : GameState :=
  { GameState.new_game with pA := { GameState.new_game.pA with age := 2 } }

/-- A raw command ordering two Barracks (100 wood each): each entry is
individually affordable against the 150-wood pre-tick ledger. -/
def c1_raw : PyVal :=
  .dict [(.str "build", .list [.dict [(.str "building", .str "Barracks")],
                               .dict [(.str "building", .str "Barracks")]])]

/-- C1: the claimed invariant fails on the code.  Both Barracks entries
are individually affordable, so the validator keeps both; `_process_builds`
re-checks affordability but never deducts, so it constructs both; then
`deduct_costs` deducts the full cost of every validated build entry with no
re-check, driving the wood counter to -50 < 0 after the tick. -/
theorem c1_build_deduction_drives_wood_negative :
    ((validate_action c1_raw c1_gs.pA 1).map Action.build).toOption
        = some ["Barracks", "Barracks"] ∧
    ((post_decision_phase c1_gs c1_raw (PyVal.dict [])).map
        (fun s => s.pA.resources.wood)).toOption = some (-50) ∧
    (-50 : Int) < 0 := by
  refine ⟨by decide, by decide, by decide⟩

/-- A raw command whose `unit` entry is a (valid-JSON) list: `unit not in
UNITS` then hashes the list and raises `TypeError`. -/
def c4_raw : PyVal := .dict [(.str "train", .list [.dict [(.str "unit", .list [])]])]

/-- C4: the validator does not in fact accept every input shape without
raising: a train entry whose `unit` value is an unhashable list makes the
membership test `unit not in UNITS` raise `TypeError`, which nothing in
`run_turn` catches. -/
theorem c4_validator_raises_on_unhashable_unit :
    validate_action c4_raw GameState.new_game.pA 1
      = .error "TypeError: unhashable type" := by
  rfl

/-- A raw command whose only content is a research request for an unknown
upgrade, which the validator drops. -/
def c2_raw : PyVal :=
  .dict [(.str "research", .list [.dict [(.str "upgrade", .str "attack_9")]])]

/-- C2 counterexample: the validator drops the research request (the
sanitised command has empty research), yet the complete turn output —
event log included — is identical to the turn in which the request was
never submitted; no log entry anywhere corresponds to the drop. -/
theorem c2_dropped_research_leaves_no_log_trace :
    validate_research (PyVal.list [PyVal.dict [(PyVal.str "upgrade", PyVal.str "attack_9")]])
        GameState.new_game.pA = .ok [] ∧
    post_decision_phase GameState.new_game c2_raw (PyVal.dict [])
      = post_decision_phase GameState.new_game (PyVal.dict []) (PyVal.dict []) := by
  constructor
  · rfl
  · rfl

/-- C2 amended: dropped or clamped sub-entries are not themselves logged.
The validator appends nothing to the event log, and everything the turn
does — including all logging — is a function of the sanitised command
alone, so two raw commands with the same sanitised form produce identical
turn output and a dropped entry leaves no trace. -/
theorem c2_turn_output_depends_only_on_sanitized_command
    (gs : GameState) (rawA rawA' rawB : PyVal)
    (h : validate_action rawA gs.pA gs.turn = validate_action rawA' gs.pA gs.turn) :
    post_decision_phase gs rawA rawB = post_decision_phase gs rawA' rawB := by
  simp only [post_decision_phase]
  rw [h]

/-- Witness for C2: instantiating the amended theorem at the dropped
research request versus the empty command. -/
theorem c2_turn_output_depends_only_on_sanitized_command_witness :
    post_decision_phase GameState.new_game c2_raw (PyVal.dict [])
      = post_decision_phase GameState.new_game (PyVal.dict []) (PyVal.dict []) :=
  c2_turn_output_depends_only_on_sanitized_command GameState.new_game c2_raw
    (PyVal.dict []) (PyVal.dict []) (by rfl)

/-! Exactness lemmas for the binary64 model.  `fl_exp_go` is a bounded
linear search, so its result is characterised by the two lemmas below:
the window inequality holds at the result, and fails strictly below it. -/

theorem fl_exp_go_le (a b : Nat) : ∀ (fuel m0 : Nat),
    2 ^ 52 * b ≤ a * 2 ^ (m0 + fuel) →
    2 ^ 52 * b ≤ a * 2 ^ fl_exp_go a b fuel m0
  | 0, m0 => fun h => by simpa [fl_exp_go] using h
  | fuel + 1, m0 => fun h => by
      unfold fl_exp_go
      split_ifs with hc
      · exact hc
      · refine fl_exp_go_le a b fuel (m0 + 1) ?_
        have he : m0 + 1 + fuel = m0 + (fuel + 1) := by omega
        rw [he]
        exact h

theorem fl_exp_go_min (a b : Nat) : ∀ (fuel m0 : Nat),
    (∀ m' < m0, a * 2 ^ m' < 2 ^ 52 * b) →
    ∀ m' < fl_exp_go a b fuel m0, a * 2 ^ m' < 2 ^ 52 * b
  | 0, m0 => fun hinv => by simpa [fl_exp_go] using hinv
  | fuel + 1, m0 => fun hinv => by
      unfold fl_exp_go
      split_ifs with hc
      · exact hinv
      · refine fl_exp_go_min a b fuel (m0 + 1) ?_
        intro m' hm'
        rcases Nat.lt_succ_iff_lt_or_eq.mp hm' with h | h
        · exact hinv m' h
        · subst h
          exact Nat.lt_of_not_le hc

/-- The search succeeds within its fuel: `fl_exp` reaches the window. -/
theorem fl_exp_found (a b : Nat) (ha : 0 < a) (hb : b < 2 ^ 200) :
    2 ^ 52 * b ≤ a * 2 ^ fl_exp a b := by
  apply fl_exp_go_le
  calc 2 ^ 52 * b ≤ 2 ^ 52 * 2 ^ 200 := Nat.mul_le_mul_left _ (le_of_lt hb)
    _ ≤ 1 * 2 ^ 256 := by norm_num
    _ ≤ a * 2 ^ (0 + 256) := by
        rw [Nat.zero_add]
        exact Nat.mul_le_mul_right _ ha

theorem fl_exp_least (a b : Nat) :
    ∀ m' < fl_exp a b, a * 2 ^ m' < 2 ^ 52 * b :=
  fl_exp_go_min a b 256 0 (fun m' hm' => absurd hm' (Nat.not_lt_zero m'))

theorem fl_exp_upper (a b : Nat) (hv : a < 2 ^ 53 * b) :
    a * 2 ^ fl_exp a b < 2 ^ 53 * b := by
  cases hm : fl_exp a b with
  | zero => simpa using hv
  | succ m =>
      have h1 : a * 2 ^ m < 2 ^ 52 * b := fl_exp_least a b m (hm ▸ Nat.lt_succ_self m)
      calc a * 2 ^ (m + 1) = 2 * (a * 2 ^ m) := by ring
        _ < 2 * (2 ^ 52 * b) := by omega
        _ = 2 ^ 53 * b := by ring

/-- Rounding to nearest lands within half an ulp of the significand:
`|rnd_half_even num den - num / den| ≤ 1/2`, stated integrally. -/
theorem rnd_half_even_spec (num den : Nat) (hden : 0 < den) :
    2 * (rnd_half_even num den * den) ≤ 2 * num + den ∧
    2 * num ≤ 2 * (rnd_half_even num den * den) + den := by
  have h1 : den * (num / den) + num % den = num := Nat.div_add_mod num den
  have h2 : num % den < den := Nat.mod_lt num hden
  have h3 : den * (num / den) = num / den * den := Nat.mul_comm _ _
  have h4 : (num / den + 1) * den = num / den * den + den := by ring
  unfold rnd_half_even
  split_ifs <;> constructor <;> omega

/-- Relative error of one rounding step: with `(r, m) := fl_ratio a b`,
the double `r / 2^m` lies within a factor `1 ± 2^-53` of `a / b`
(integral form: cross-multiplied by `b * 2^m * 2^53`). -/
theorem fl_ratio_bounds (a b : Nat) (ha : 0 < a) (hb : 0 < b) (hb' : b < 2 ^ 200) :
    ((fl_ratio a b).1 * b) * 2 ^ 53 ≤ (a * 2 ^ (fl_ratio a b).2) * (2 ^ 53 + 1) ∧
    (a * 2 ^ (fl_ratio a b).2) * (2 ^ 53 - 1) ≤ ((fl_ratio a b).1 * b) * 2 ^ 53 ∧
    (fl_ratio a b).2 = fl_exp a b := by
  have hane : ¬ a = 0 := Nat.pos_iff_ne_zero.mp ha
  simp only [fl_ratio, if_neg hane]
  have hW : 2 ^ 52 * b ≤ a * 2 ^ fl_exp a b := fl_exp_found a b ha hb'
  have hspec := rnd_half_even_spec (a * 2 ^ fl_exp a b) b hb
  refine ⟨?_, ?_, trivial⟩
  · omega
  · omega

/-- A rounded significand of a value below `2^53` is a positive integer
of at most `2^53`. -/
theorem fl_ratio_fst_le (a b : Nat) (ha : 0 < a) (hb : 0 < b) (hb' : b < 2 ^ 200)
    (hv : a < 2 ^ 53 * b) : (fl_ratio a b).1 ≤ 2 ^ 53 ∧ 1 ≤ (fl_ratio a b).1 := by
  obtain ⟨hu, hl, hm⟩ := fl_ratio_bounds a b ha hb hb'
  have hWu : a * 2 ^ (fl_ratio a b).2 < 2 ^ 53 * b := by
    rw [hm]; exact fl_exp_upper a b hv
  have hWl : 2 ^ 52 * b ≤ a * 2 ^ (fl_ratio a b).2 := by
    rw [hm]; exact fl_exp_found a b ha hb'
  constructor
  · by_contra hcon
    push_neg at hcon
    have hA : (2 ^ 53 + 1) * b ≤ (fl_ratio a b).1 * b :=
      Nat.mul_le_mul_right b hcon
    omega
  · by_contra hcon
    push_neg at hcon
    have h0 : (fl_ratio a b).1 = 0 := by omega
    rw [h0] at hl
    simp only [Nat.zero_mul] at hl
    omega

/-- Upper error bound through both rounding steps: the double-precision
rescaled count never exceeds the exact ratio `n * tv / tt`
(`scaled_entry n tv tt * tt ≤ n * tv`, so its floor bounds it). -/
theorem scaled_entry_mul_le (n tv tt : Nat) (htt : 0 < tt) (htv : tv < tt)
    (hn : n ≤ tt) (hcap : tt ≤ 2 ^ 24) :
    scaled_entry n tv tt * tt ≤ n * tv := by
  by_cases htv0 : tv = 0
  · subst htv0
    simp [scaled_entry, fl_ratio]
  by_cases hn0 : n = 0
  · subst hn0
    simp [scaled_entry, fl_ratio]
  have htvp : 0 < tv := Nat.pos_of_ne_zero htv0
  have hnp : 0 < n := Nat.pos_of_ne_zero hn0
  have hb1' : tt < 2 ^ 200 := lt_of_le_of_lt hcap (by norm_num)
  have hv1 : tv < 2 ^ 53 * tt := lt_of_lt_of_le htv (Nat.le_mul_of_pos_left tt (by norm_num))
  obtain ⟨F1u, F1l, hm1⟩ := fl_ratio_bounds tv tt htvp htt hb1'
  obtain ⟨hr1le, hr1pos⟩ := fl_ratio_fst_le tv tt htvp htt hb1' hv1
  set r1 := (fl_ratio tv tt).1 with hr1d
  set m1 := (fl_ratio tv tt).2 with hm1d
  have W1l : 2 ^ 52 * tt ≤ tv * 2 ^ m1 := by
    rw [hm1]; exact fl_exp_found tv tt htvp hb1'
  have hm1big : 2 ^ 52 < 2 ^ m1 := by
    have h1 : tv * 2 ^ m1 < tt * 2 ^ m1 :=
      mul_lt_mul_of_pos_right htv (pow_pos (by norm_num) m1)
    have h2 : tt * 2 ^ 52 < tt * 2 ^ m1 := by
      calc tt * 2 ^ 52 = 2 ^ 52 * tt := Nat.mul_comm _ _
        _ ≤ tv * 2 ^ m1 := W1l
        _ < tt * 2 ^ m1 := h1
    exact Nat.lt_of_mul_lt_mul_left h2
  have hm1pos : 0 < m1 := by
    rcases Nat.eq_zero_or_pos m1 with h | h
    · rw [h] at hm1big; norm_num at hm1big
    · exact h
  have hm1small : 2 ^ m1 < 2 ^ 200 := by
    have hlast : tv * 2 ^ (m1 - 1) < 2 ^ 52 * tt := by
      have h := fl_exp_least tv tt (m1 - 1) (by rw [← hm1]; omega)
      exact h
    have h4 : 2 ^ (m1 - 1) ≤ tv * 2 ^ (m1 - 1) := Nat.le_mul_of_pos_left _ htvp
    have h5 : 2 ^ (m1 - 1) < 2 ^ 76 := by
      calc 2 ^ (m1 - 1) ≤ tv * 2 ^ (m1 - 1) := h4
        _ < 2 ^ 52 * tt := hlast
        _ ≤ 2 ^ 52 * 2 ^ 24 := Nat.mul_le_mul_left _ hcap
        _ = 2 ^ 76 := by norm_num
    have h7 : m1 - 1 < 76 := (Nat.pow_lt_pow_iff_right (by norm_num)).mp h5
    calc 2 ^ m1 ≤ 2 ^ 77 := Nat.pow_le_pow_right (by norm_num) (by omega)
      _ < 2 ^ 200 := by norm_num
  have ha2 : 0 < n * r1 := Nat.mul_pos hnp hr1pos
  have hb2 : 0 < 2 ^ m1 := pow_pos (by norm_num) m1
  obtain ⟨F2u, F2l, hm2⟩ := fl_ratio_bounds (n * r1) (2 ^ m1) ha2 hb2 hm1small
  set r2 := (fl_ratio (n * r1) (2 ^ m1)).1 with hr2d
  set m2 := (fl_ratio (n * r1) (2 ^ m1)).2 with hm2d
  have hval : scaled_entry n tv tt = r2 / 2 ^ m2 := rfl
  have hntv : n * tv ≤ 2 ^ 48 := by
    calc n * tv ≤ 2 ^ 24 * 2 ^ 24 :=
          Nat.mul_le_mul (le_trans hn hcap) (le_trans (le_of_lt htv) hcap)
      _ = 2 ^ 48 := by norm_num
  have hchain : (r2 * tt * (2 ^ 53 * 2 ^ 53)) * 2 ^ m1
      ≤ (n * tv * 2 ^ m2 * ((2 ^ 53 + 1) * (2 ^ 53 + 1))) * 2 ^ m1 := by
    calc (r2 * tt * (2 ^ 53 * 2 ^ 53)) * 2 ^ m1
        = (r2 * 2 ^ m1 * 2 ^ 53) * (tt * 2 ^ 53) := by ring
      _ ≤ (n * r1 * 2 ^ m2 * (2 ^ 53 + 1)) * (tt * 2 ^ 53) := Nat.mul_le_mul_right _ F2u
      _ = (r1 * tt * 2 ^ 53) * (n * 2 ^ m2 * (2 ^ 53 + 1)) := by ring
      _ ≤ (tv * 2 ^ m1 * (2 ^ 53 + 1)) * (n * 2 ^ m2 * (2 ^ 53 + 1)) :=
          Nat.mul_le_mul_right _ F1u
      _ = (n * tv * 2 ^ m2 * ((2 ^ 53 + 1) * (2 ^ 53 + 1))) * 2 ^ m1 := by ring
  have hq : r2 * tt * (2 ^ 53 * 2 ^ 53) ≤ n * tv * 2 ^ m2 * ((2 ^ 53 + 1) * (2 ^ 53 + 1)) :=
    Nat.le_of_mul_le_mul_right hchain hb2
  have hnum : n * tv * ((2 ^ 53 + 1) * (2 ^ 53 + 1)) < (n * tv + 1) * (2 ^ 53 * 2 ^ 53) := by
    omega
  have hstrict : r2 * tt * (2 ^ 53 * 2 ^ 53)
      < ((n * tv + 1) * 2 ^ m2) * (2 ^ 53 * 2 ^ 53) := by
    calc r2 * tt * (2 ^ 53 * 2 ^ 53)
        ≤ n * tv * 2 ^ m2 * ((2 ^ 53 + 1) * (2 ^ 53 + 1)) := hq
      _ = (n * tv * ((2 ^ 53 + 1) * (2 ^ 53 + 1))) * 2 ^ m2 := by ring
      _ < ((n * tv + 1) * (2 ^ 53 * 2 ^ 53)) * 2 ^ m2 :=
          mul_lt_mul_of_pos_right hnum (pow_pos (by norm_num) m2)
      _ = ((n * tv + 1) * 2 ^ m2) * (2 ^ 53 * 2 ^ 53) := by ring
  have hr2tt : r2 * tt < (n * tv + 1) * 2 ^ m2 := Nat.lt_of_mul_lt_mul_right hstrict
  have hdivle : r2 / 2 ^ m2 * 2 ^ m2 ≤ r2 := Nat.div_mul_le_self r2 _
  have hfin : (r2 / 2 ^ m2 * tt) * 2 ^ m2 < (n * tv + 1) * 2 ^ m2 := by
    calc (r2 / 2 ^ m2 * tt) * 2 ^ m2 = (r2 / 2 ^ m2 * 2 ^ m2) * tt := by ring
      _ ≤ r2 * tt := Nat.mul_le_mul_right _ hdivle
      _ < (n * tv + 1) * 2 ^ m2 := hr2tt
  have hvt : r2 / 2 ^ m2 * tt < n * tv + 1 := Nat.lt_of_mul_lt_mul_right hfin
  rw [hval]
  omega

/-- Lower error bound through both rounding steps: the double-precision
rescaled count falls at most one below the exact ratio floor
(`n * tv ≤ (scaled_entry n tv tt + 1) * tt`). -/
theorem scaled_entry_succ_mul_ge (n tv tt : Nat) (htt : 0 < tt) (htv : tv < tt)
    (hn : n ≤ tt) (hcap : tt ≤ 2 ^ 24) :
    n * tv ≤ (scaled_entry n tv tt + 1) * tt := by
  by_cases htv0 : tv = 0
  · subst htv0
    simp
  by_cases hn0 : n = 0
  · subst hn0
    simp
  have htvp : 0 < tv := Nat.pos_of_ne_zero htv0
  have hnp : 0 < n := Nat.pos_of_ne_zero hn0
  have hb1' : tt < 2 ^ 200 := lt_of_le_of_lt hcap (by norm_num)
  have hv1 : tv < 2 ^ 53 * tt := lt_of_lt_of_le htv (Nat.le_mul_of_pos_left tt (by norm_num))
  obtain ⟨F1u, F1l, hm1⟩ := fl_ratio_bounds tv tt htvp htt hb1'
  obtain ⟨hr1le, hr1pos⟩ := fl_ratio_fst_le tv tt htvp htt hb1' hv1
  set r1 := (fl_ratio tv tt).1 with hr1d
  set m1 := (fl_ratio tv tt).2 with hm1d
  have W1l : 2 ^ 52 * tt ≤ tv * 2 ^ m1 := by
    rw [hm1]; exact fl_exp_found tv tt htvp hb1'
  have hm1big : 2 ^ 52 < 2 ^ m1 := by
    have h1 : tv * 2 ^ m1 < tt * 2 ^ m1 :=
      mul_lt_mul_of_pos_right htv (pow_pos (by norm_num) m1)
    have h2 : tt * 2 ^ 52 < tt * 2 ^ m1 := by
      calc tt * 2 ^ 52 = 2 ^ 52 * tt := Nat.mul_comm _ _
        _ ≤ tv * 2 ^ m1 := W1l
        _ < tt * 2 ^ m1 := h1
    exact Nat.lt_of_mul_lt_mul_left h2
  have hm1pos : 0 < m1 := by
    rcases Nat.eq_zero_or_pos m1 with h | h
    · rw [h] at hm1big; norm_num at hm1big
    · exact h
  have hm1small : 2 ^ m1 < 2 ^ 200 := by
    have hlast : tv * 2 ^ (m1 - 1) < 2 ^ 52 * tt := by
      have h := fl_exp_least tv tt (m1 - 1) (by rw [← hm1]; omega)
      exact h
    have h4 : 2 ^ (m1 - 1) ≤ tv * 2 ^ (m1 - 1) := Nat.le_mul_of_pos_left _ htvp
    have h5 : 2 ^ (m1 - 1) < 2 ^ 76 := by
      calc 2 ^ (m1 - 1) ≤ tv * 2 ^ (m1 - 1) := h4
        _ < 2 ^ 52 * tt := hlast
        _ ≤ 2 ^ 52 * 2 ^ 24 := Nat.mul_le_mul_left _ hcap
        _ = 2 ^ 76 := by norm_num
    have h7 : m1 - 1 < 76 := (Nat.pow_lt_pow_iff_right (by norm_num)).mp h5
    calc 2 ^ m1 ≤ 2 ^ 77 := Nat.pow_le_pow_right (by norm_num) (by omega)
      _ < 2 ^ 200 := by norm_num
  have ha2 : 0 < n * r1 := Nat.mul_pos hnp hr1pos
  have hb2 : 0 < 2 ^ m1 := pow_pos (by norm_num) m1
  obtain ⟨F2u, F2l, hm2⟩ := fl_ratio_bounds (n * r1) (2 ^ m1) ha2 hb2 hm1small
  set r2 := (fl_ratio (n * r1) (2 ^ m1)).1 with hr2d
  set m2 := (fl_ratio (n * r1) (2 ^ m1)).2 with hm2d
  have hval : scaled_entry n tv tt = r2 / 2 ^ m2 := rfl
  have hntv : n * tv ≤ 2 ^ 48 := by
    calc n * tv ≤ 2 ^ 24 * 2 ^ 24 :=
          Nat.mul_le_mul (le_trans hn hcap) (le_trans (le_of_lt htv) hcap)
      _ = 2 ^ 48 := by norm_num
  have hL : (2 : ℕ) ^ 53 - 1 = 9007199254740991 := by norm_num
  rw [hL] at F1l F2l
  have hchainL : (n * tv * 2 ^ m2 * (9007199254740991 * 9007199254740991)) * 2 ^ m1
      ≤ (r2 * tt * (2 ^ 53 * 2 ^ 53)) * 2 ^ m1 := by
    calc (n * tv * 2 ^ m2 * (9007199254740991 * 9007199254740991)) * 2 ^ m1
        = (tv * 2 ^ m1 * 9007199254740991) * (n * 2 ^ m2 * 9007199254740991) := by ring
      _ ≤ (r1 * tt * 2 ^ 53) * (n * 2 ^ m2 * 9007199254740991) :=
          Nat.mul_le_mul_right _ F1l
      _ = (n * r1 * 2 ^ m2 * 9007199254740991) * (tt * 2 ^ 53) := by ring
      _ ≤ (r2 * 2 ^ m1 * 2 ^ 53) * (tt * 2 ^ 53) := Nat.mul_le_mul_right _ F2l
      _ = (r2 * tt * (2 ^ 53 * 2 ^ 53)) * 2 ^ m1 := by ring
  have hqL : n * tv * 2 ^ m2 * (9007199254740991 * 9007199254740991)
      ≤ r2 * tt * (2 ^ 53 * 2 ^ 53) :=
    Nat.le_of_mul_le_mul_right hchainL hb2
  have hm2pos : 0 < 2 ^ m2 := pow_pos (by norm_num) m2
  have hr2lt : r2 < (r2 / 2 ^ m2 + 1) * 2 ^ m2 := by
    have hdm : 2 ^ m2 * (r2 / 2 ^ m2) + r2 % 2 ^ m2 = r2 := Nat.div_add_mod r2 _
    have hmod : r2 % 2 ^ m2 < 2 ^ m2 := Nat.mod_lt _ hm2pos
    have he : (r2 / 2 ^ m2 + 1) * 2 ^ m2 = 2 ^ m2 * (r2 / 2 ^ m2) + 2 ^ m2 := by ring
    omega
  have hcmp : (n * tv * (9007199254740991 * 9007199254740991)) * 2 ^ m2
      < ((r2 / 2 ^ m2 + 1) * tt * (2 ^ 53 * 2 ^ 53)) * 2 ^ m2 := by
    calc (n * tv * (9007199254740991 * 9007199254740991)) * 2 ^ m2
        = n * tv * 2 ^ m2 * (9007199254740991 * 9007199254740991) := by ring
      _ ≤ r2 * tt * (2 ^ 53 * 2 ^ 53) := hqL
      _ = r2 * (tt * (2 ^ 53 * 2 ^ 53)) := by ring
      _ < ((r2 / 2 ^ m2 + 1) * 2 ^ m2) * (tt * (2 ^ 53 * 2 ^ 53)) :=
          mul_lt_mul_of_pos_right hr2lt (by positivity)
      _ = ((r2 / 2 ^ m2 + 1) * tt * (2 ^ 53 * 2 ^ 53)) * 2 ^ m2 := by ring
  have hcmp2 : n * tv * (9007199254740991 * 9007199254740991)
      < (r2 / 2 ^ m2 + 1) * tt * (2 ^ 53 * 2 ^ 53) :=
    Nat.lt_of_mul_lt_mul_right hcmp
  rw [hval]
  omega

/-- Summing the per-entry bound over the three resources: a fired rescale
keeps the total within the villager budget. -/
theorem scale_tasks_total_le (t : Tasks) (tv : Nat) (h : 0 < t.total)
    (htv : tv < t.total) (hcap : t.total ≤ 2 ^ 24) :
    (scale_tasks t tv t.total).total ≤ tv := by
  obtain ⟨f, w, g⟩ := t
  simp only [scale_tasks, Tasks.total] at *
  have hf := scaled_entry_mul_le f tv (f + w + g) h htv (by omega) hcap
  have hw := scaled_entry_mul_le w tv (f + w + g) h htv (by omega) hcap
  have hg := scaled_entry_mul_le g tv (f + w + g) h htv (by omega) hcap
  have hsum : (scaled_entry f tv (f + w + g) + scaled_entry w tv (f + w + g)
      + scaled_entry g tv (f + w + g)) * (f + w + g) ≤ tv * (f + w + g) := by
    calc (scaled_entry f tv (f + w + g) + scaled_entry w tv (f + w + g)
          + scaled_entry g tv (f + w + g)) * (f + w + g)
        = scaled_entry f tv (f + w + g) * (f + w + g)
          + scaled_entry w tv (f + w + g) * (f + w + g)
          + scaled_entry g tv (f + w + g) * (f + w + g) := by ring
      _ ≤ f * tv + w * tv + g * tv := Nat.add_le_add (Nat.add_le_add hf hw) hg
      _ = tv * (f + w + g) := by ring
  exact Nat.le_of_mul_le_mul_right hsum h

theorem validator_rescale_total_le (t : Tasks) (tv : Nat) (hcap : t.total ≤ 2 ^ 24) :
    (validator_rescale t tv).total ≤ tv := by
  unfold validator_rescale
  by_cases hc : tv < t.total ∧ 0 < t.total
  · rw [if_pos hc]
    exact scale_tasks_total_le t tv hc.2 hc.1 hcap
  · rw [if_neg hc]
    omega

theorem reconcile_tasks_total_le (t : Tasks) (tv : Nat) (hcap : t.total ≤ 2 ^ 24) :
    (reconcile_tasks t tv).total ≤ tv := by
  unfold reconcile_tasks
  by_cases hc : tv < t.total ∧ 0 < tv
  · rw [if_pos hc]
    exact scale_tasks_total_le t tv (by omega) hc.1 hcap
  · rw [if_neg hc]
    by_cases h0 : tv = 0
    · rw [if_pos h0]
      simp [Tasks.total, Tasks.empty]
    · rw [if_neg h0]
      omega

/-- A player owning 15 villagers, for the C5 counterexample. -/
def c5x_player : PlayerState :=
  { init_player "A" "Base_A" with
      units := dset (init_player "A" "Base_A").units "Base_A" [("Villager", 15)] }

/-- C5 counterexample: the rescale computes
`int(n * (total_villagers / total_tasked))` in IEEE-754 double precision,
not as the exact ratio floor the claim states.  A player owning 15
villagers who requests 22 food gatherers is assigned 14 — in binary64,
`22 * (15 / 22)` evaluates to 14.999999999999998 and `int` truncates to
14 — while the exact proportional floor `22 * 15 / 22` is 15.  Likewise
a request of 47 with 3 villagers yields 2 where the exact floor is 3, so
the rescale does not preserve the exact rounded-down proportions. -/
theorem c5_double_rescale_falls_below_exact_ratio_floor :
    validate_task_villagers (PyVal.dict [(PyVal.str "food", PyVal.int 22)]) c5x_player
      = .ok ⟨14, 0, 0⟩ ∧
    22 * 15 / 22 = 15 ∧
    scaled_entry 47 3 47 = 2 ∧
    47 * 3 / 47 = 3 :=
  ⟨rfl, rfl, rfl, rfl⟩

/-- C5 amended: after validator sanitisation and after the economy
engine's reconciliation the total tasked never exceeds the villager
count (shown for totals up to `2^24`, far beyond any reachable count);
when a rescale fires, each per-resource count is
`int(n * (total_villagers / total_tasked))` computed in IEEE-754 double
precision, which equals the exact proportional floor `n * tv / tt` or
falls exactly one below it, so the allocation is still scaled down
approximately proportionally, rounding down. -/
theorem c5_villager_task_totals_bounded_amended :
    (∀ (t : Tasks) (tv : Nat), t.total ≤ 2 ^ 24 → (validator_rescale t tv).total ≤ tv) ∧
    (∀ (t : Tasks) (tv : Nat), t.total ≤ 2 ^ 24 → (reconcile_tasks t tv).total ≤ tv) ∧
    (∀ (d : List (PyVal × PyVal)) (p : PlayerState) (c t' : Tasks),
      collect_tasks d Tasks.empty = .ok c → c.total ≤ 2 ^ 24 →
      validate_task_villagers (.dict d) p = .ok t' → t'.total ≤ total_villagers p) ∧
    (∀ (n tv tt : Nat), 0 < tt → tv < tt → n ≤ tt → tt ≤ 2 ^ 24 →
      scaled_entry n tv tt ≤ n * tv / tt ∧ n * tv / tt ≤ scaled_entry n tv tt + 1) := by
  refine ⟨fun t tv h => validator_rescale_total_le t tv h,
          fun t tv h => reconcile_tasks_total_le t tv h, ?_, ?_⟩
  · intro d p c t' hcol hcap hval
    simp only [validate_task_villagers] at hval
    rw [hcol] at hval
    simp only [Except.map] at hval
    cases hval
    exact validator_rescale_total_le c (total_villagers p) hcap
  · intro n tv tt htt htv hn hcap
    constructor
    · exact (Nat.le_div_iff_mul_le htt).mpr (scaled_entry_mul_le n tv tt htt htv hn hcap)
    · have h := scaled_entry_succ_mul_ge n tv tt htt htv hn hcap
      exact Nat.div_le_of_le_mul (by rw [Nat.mul_comm tt (scaled_entry n tv tt + 1)]; exact h)

/-- Witness for the amended C5 theorem, at the counterexample input: the
rescaled request of 22 stays within the 15-villager budget end to end,
and 22 rescaled at 15/22 is within one below the exact floor 15. -/
theorem c5_villager_task_totals_bounded_amended_witness :
    (validator_rescale ⟨22, 0, 0⟩ 15).total ≤ 15 ∧
    Tasks.total ⟨14, 0, 0⟩ ≤ total_villagers c5x_player ∧
    (scaled_entry 22 15 22 ≤ 22 * 15 / 22 ∧ 22 * 15 / 22 ≤ scaled_entry 22 15 22 + 1) :=
  ⟨c5_villager_task_totals_bounded_amended.1 ⟨22, 0, 0⟩ 15 (by decide),
   c5_villager_task_totals_bounded_amended.2.2.1
     [(PyVal.str "food", PyVal.int 22)] c5x_player ⟨22, 0, 0⟩ ⟨14, 0, 0⟩
     rfl (by decide) rfl,
   c5_villager_task_totals_bounded_amended.2.2.2 22 15 22 (by decide) (by decide)
     (by decide) (by decide)⟩

/-! ## C8: research idempotence -/

theorem get_player_add_log (gs : GameState) (e : LogEvent) (pid : String) :
    get_player (add_log gs e) pid = get_player gs pid := rfl

theorem get_upd_player (gs : GameState) (pid : String) (f : PlayerState → PlayerState) :
    get_player (upd_player gs pid f) pid = f (get_player gs pid) := by
  unfold upd_player set_player
  by_cases h : pid = "A" <;> simp [get_player, h]

theorem validate_research_item_researched (p : PlayerState) (u : String)
    (h : u ∈ p.upgrades) :
    validate_research_item p (PyVal.dict [(PyVal.str "upgrade", PyVal.str u)])
      = .ok none := by
  simp [validate_research_item, py_get, is_str_key, py_mem_str, hashable, Except.map, h]

theorem research_step_count (pid : String) (gs : GameState) (u name : String)
    (h : u ∈ (get_player gs pid).upgrades) :
    ((get_player (process_research_step pid gs name) pid).upgrades.count u
        = (get_player gs pid).upgrades.count u) ∧
    u ∈ (get_player (process_research_step pid gs name) pid).upgrades := by
  unfold process_research_step
  cases hdg : dget UPGRADES name with
  | none => exact ⟨rfl, h⟩
  | some upg =>
    by_cases hmem : name ∈ (get_player gs pid).upgrades
    · simp [hmem, h]
    · have hne : name ≠ u := fun he => hmem (he ▸ h)
      by_cases haff : can_afford (get_player gs pid).resources upg.cost
      · simp [hmem, haff, get_player_add_log, get_upd_player, List.count_append,
              List.count_eq_zero, hne, Ne.symm hne, h]
      · have ha : can_afford (get_player gs pid).resources upg.cost = false := by
          simpa using haff
        simp [hmem, ha, h]

theorem research_fold_count (pid u : String) :
    ∀ (l : List String) (gs : GameState), u ∈ (get_player gs pid).upgrades →
      ((get_player (l.foldl (process_research_step pid) gs) pid).upgrades.count u
        = (get_player gs pid).upgrades.count u ∧
       u ∈ (get_player (l.foldl (process_research_step pid) gs) pid).upgrades)
  | [], _, h => ⟨rfl, h⟩
  | name :: rest, gs, h => by
    have step := research_step_count pid gs u name h
    have ih := research_fold_count pid u rest (process_research_step pid gs name) step.2
    exact ⟨ih.1.trans step.1, ih.2⟩

/-- C8: resubmitting research for an already-researched upgrade is a
no-op.  The validator drops the request; processing a resubmission leaves
the whole game state — ledger, upgrade list, bonuses, log — unchanged;
and no research processing ever changes the multiplicity of an upgrade the
player already holds, so it stays in the list exactly once. -/
theorem c8_research_resubmission_idempotent :
    (∀ (p : PlayerState) (u : String), u ∈ p.upgrades →
      validate_research (PyVal.list [PyVal.dict [(PyVal.str "upgrade", PyVal.str u)]]) p
        = .ok []) ∧
    (∀ (gs : GameState) (pid u : String), u ∈ (get_player gs pid).upgrades →
      process_research gs pid { EMPTY_ACTION with research := [u] } = gs) ∧
    (∀ (gs : GameState) (pid u : String) (a : Action), u ∈ (get_player gs pid).upgrades →
      (get_player (process_research gs pid a) pid).upgrades.count u
        = (get_player gs pid).upgrades.count u) := by
  refine ⟨?_, ?_, ?_⟩
  · intro p u h
    simp only [validate_research, validate_research_list,
      validate_research_item_researched p u h]
    rfl
  · intro gs pid u h
    simp only [process_research, List.foldl]
    unfold process_research_step
    cases hdg : dget UPGRADES u with
    | none => rfl
    | some upg => simp [h]
  · intro gs pid u a h
    exact (research_fold_count pid u a.research gs h).1

/-- A reachable-shaped state in which player A has already researched
attack_1. -/
def c8_gs : GameState :=
  { GameState.new_game with
      pA := { GameState.new_game.pA with upgrades := ["attack_1"] } }

/-- Witness for C8 at a concrete state: the resubmission is dropped by the
validator, processing it is the identity, and a longer research command
leaves the multiplicity of attack_1 unchanged. -/
theorem c8_research_resubmission_idempotent_witness :
    validate_research
        (PyVal.list [PyVal.dict [(PyVal.str "upgrade", PyVal.str "attack_1")]]) c8_gs.pA
      = .ok [] ∧
    process_research c8_gs "A" { EMPTY_ACTION with research := ["attack_1"] } = c8_gs ∧
    (get_player (process_research c8_gs "A"
        { EMPTY_ACTION with research := ["attack_1", "armor_1"] }) "A").upgrades.count
        "attack_1"
      = (get_player c8_gs "A").upgrades.count "attack_1" :=
  ⟨c8_research_resubmission_idempotent.1 c8_gs.pA "attack_1" (by decide),
   c8_research_resubmission_idempotent.2.1 c8_gs "A" "attack_1" (by decide),
   c8_research_resubmission_idempotent.2.2 c8_gs "A" "attack_1"
     { EMPTY_ACTION with research := ["attack_1", "armor_1"] } (by decide)⟩

/-! ## C9: builds land in the builder's base zone only -/

/-- Which build entries `_process_builds` actually constructs: known
building names whose full cost is affordable (the ledger is never deducted
inside the loop, so the test is against the unchanged resources). -/
def build_kept (r : Resources) (b : String) : Bool :=
  match dget BUILDINGS b with
  | none => false
  | some st => can_afford r st.cost

theorem process_build_step_spec (pid : String) (gs : GameState) (b : String) :
    ((get_player (process_build_step pid gs b) pid).resources
        = (get_player gs pid).resources) ∧
    ((get_player (process_build_step pid gs b) pid).base_zone
        = (get_player gs pid).base_zone) ∧
    (dgetD (get_player (process_build_step pid gs b) pid).buildings
        (get_player gs pid).base_zone []
      = dgetD (get_player gs pid).buildings (get_player gs pid).base_zone []
          ++ (if build_kept (get_player gs pid).resources b then [b] else [])) ∧
    (∀ z, z ≠ (get_player gs pid).base_zone →
      dgetD (get_player (process_build_step pid gs b) pid).buildings z []
          = dgetD (get_player gs pid).buildings z [] ∧
      dgetD (get_player (process_build_step pid gs b) pid).building_hp z []
          = dgetD (get_player gs pid).building_hp z []) := by
  cases hdg : dget BUILDINGS b with
  | none => simp [process_build_step, build_kept, hdg]
  | some st =>
    by_cases haff : can_afford (get_player gs pid).resources st.cost
    · by_cases hwt : b = "Wall" ∨ b = "Tower"
      · refine ⟨?_, ?_, ?_, ?_⟩
        · simp [process_build_step, hdg, haff, hwt, get_player_add_log, get_upd_player]
        · simp [process_build_step, hdg, haff, hwt, get_player_add_log, get_upd_player]
        · simp [process_build_step, build_kept, hdg, haff, hwt, get_player_add_log,
                get_upd_player, dgetD, dget_dset]
        · intro z hz
          have hzb : (get_player gs pid).base_zone ≠ z := Ne.symm hz
          constructor <;>
            simp [process_build_step, hdg, haff, hwt, get_player_add_log, get_upd_player,
                  dgetD, dget_dset, hzb]
      · refine ⟨?_, ?_, ?_, ?_⟩
        · simp [process_build_step, hdg, haff, hwt, get_player_add_log, get_upd_player]
        · simp [process_build_step, hdg, haff, hwt, get_player_add_log, get_upd_player]
        · simp [process_build_step, build_kept, hdg, haff, hwt, get_player_add_log,
                get_upd_player, dgetD, dget_dset]
        · intro z hz
          have hzb : (get_player gs pid).base_zone ≠ z := Ne.symm hz
          constructor <;>
            simp [process_build_step, hdg, haff, hwt, get_player_add_log, get_upd_player,
                  dgetD, dget_dset, hzb]
    · have ha : can_afford (get_player gs pid).resources st.cost = false := by
        simpa using haff
      simp [process_build_step, build_kept, hdg, ha]

theorem process_builds_fold_spec (pid : String) :
    ∀ (l : List String) (gs : GameState),
      ((get_player (l.foldl (process_build_step pid) gs) pid).resources
          = (get_player gs pid).resources) ∧
      ((get_player (l.foldl (process_build_step pid) gs) pid).base_zone
          = (get_player gs pid).base_zone) ∧
      (dgetD (get_player (l.foldl (process_build_step pid) gs) pid).buildings
          (get_player gs pid).base_zone []
        = dgetD (get_player gs pid).buildings (get_player gs pid).base_zone []
            ++ l.filter (build_kept (get_player gs pid).resources)) ∧
      (∀ z, z ≠ (get_player gs pid).base_zone →
        dgetD (get_player (l.foldl (process_build_step pid) gs) pid).buildings z []
            = dgetD (get_player gs pid).buildings z [] ∧
        dgetD (get_player (l.foldl (process_build_step pid) gs) pid).building_hp z []
            = dgetD (get_player gs pid).building_hp z [])
  | [], gs => ⟨rfl, rfl, by simp, fun z _ => ⟨rfl, rfl⟩⟩
  | b :: rest, gs => by
    obtain ⟨sres, sbase, sbld, soth⟩ := process_build_step_spec pid gs b
    obtain ⟨ires, ibase, ibld, ioth⟩ :=
      process_builds_fold_spec pid rest (process_build_step pid gs b)
    refine ⟨ires.trans sres, ibase.trans sbase, ?_, ?_⟩
    · rw [List.foldl_cons] at *
      rw [show (get_player (process_build_step pid gs b) pid).base_zone
            = (get_player gs pid).base_zone from sbase] at ibld
      rw [show (get_player (process_build_step pid gs b) pid).resources
            = (get_player gs pid).resources from sres] at ibld
      rw [ibld, sbld]
      by_cases hk : build_kept (get_player gs pid).resources b <;>
        simp [hk, List.filter_cons]
    · intro z hz
      rw [List.foldl_cons]
      have hz' : z ≠ (get_player (process_build_step pid gs b) pid).base_zone := by
        rw [sbase]; exact hz
      obtain ⟨i1, i2⟩ := ioth z hz'
      obtain ⟨s1, s2⟩ := soth z hz
      exact ⟨i1.trans s1, i2.trans s2⟩

/-- An age-3 player A (Wall requires age 3) with the default starting
resources, and a command building two Walls. -/
def c9_gs : GameState :=
  { GameState.new_game with pA := { GameState.new_game.pA with age := 3 } }

def c9_wall_action : Action := { EMPTY_ACTION with build := ["Wall", "Wall"] }

/-- C9: a validated build entry carries no zone choice, and
`_process_builds` touches only the builder's own base zone: every other
zone's building list and HP map are unchanged, while the base zone gains
exactly the affordable entries; the closed conjunct shows two Walls
pooling 100 + 100 HP in the base zone's HP map. -/
theorem c9_builds_placed_only_in_base_zone
    (gs : GameState) (pid : String) (a : Action) (z : String)
    (hz : z ≠ (get_player gs pid).base_zone) :
    (dgetD (get_player (process_builds gs pid a) pid).buildings z []
        = dgetD (get_player gs pid).buildings z []) ∧
    (dgetD (get_player (process_builds gs pid a) pid).building_hp z []
        = dgetD (get_player gs pid).building_hp z []) ∧
    (dgetD (get_player (process_builds gs pid a) pid).buildings
        (get_player gs pid).base_zone []
      = dgetD (get_player gs pid).buildings (get_player gs pid).base_zone []
          ++ a.build.filter (build_kept (get_player gs pid).resources)) ∧
    dgetD (dgetD (get_player (process_builds c9_gs "A" c9_wall_action) "A").building_hp
        "Base_A" []) "Wall" 0 = 200 := by
  obtain ⟨_, _, hbld, hoth⟩ := process_builds_fold_spec pid a.build gs
  obtain ⟨h1, h2⟩ := hoth z hz
  exact ⟨h1, h2, hbld, by decide⟩

/-- Witness for C9 at a concrete state: building two Walls leaves Mid_A
untouched and appends both to Base_A. -/
theorem c9_builds_placed_only_in_base_zone_witness :
    (dgetD (get_player (process_builds c9_gs "A" c9_wall_action) "A").buildings "Mid_A" []
        = dgetD (get_player c9_gs "A").buildings "Mid_A" []) ∧
    (dgetD (get_player (process_builds c9_gs "A" c9_wall_action) "A").building_hp "Mid_A" []
        = dgetD (get_player c9_gs "A").building_hp "Mid_A" []) ∧
    (dgetD (get_player (process_builds c9_gs "A" c9_wall_action) "A").buildings
        (get_player c9_gs "A").base_zone []
      = dgetD (get_player c9_gs "A").buildings (get_player c9_gs "A").base_zone []
          ++ c9_wall_action.build.filter (build_kept (get_player c9_gs "A").resources)) ∧
    dgetD (dgetD (get_player (process_builds c9_gs "A" c9_wall_action) "A").building_hp
        "Base_A" []) "Wall" 0 = 200 :=
  c9_builds_placed_only_in_base_zone c9_gs "A" c9_wall_action "Mid_A" (by decide)

/-! ## C6: siege damage, Wall absorption -/

theorem siege_damage_nonneg (units : Dict Nat) : 0 ≤ siege_damage units := by
  have H : ∀ (l : Dict Nat) (s : Int), 0 ≤ s →
      0 ≤ l.foldl (fun s p => if 0 < p.2 then s + (atk_of p.1 : Int) * p.2 else s) s := by
    intro l
    induction l with
    | nil => intro s hs; simpa using hs
    | cons hd tl ih =>
      intro s hs
      simp only [List.foldl_cons]
      apply ih
      by_cases hp : 0 < hd.2
      · rw [if_pos hp]
        positivity
      · rwa [if_neg hp]
  exact H units 0 le_rfl

/-- The defender's state after `base_attack`, described by `get_player`;
abbreviation used only to keep the C6 statement readable. -/
def wall_hp_at (gs : GameState) (pid zone : String) : Int :=
  dgetD (dgetD (get_player gs pid).building_hp zone []) "Wall" 0

/-- C6: the siege total is the plain sum of base attacks; it is absorbed
by the Wall's remaining HP first (the Wall being removed from the building
list exactly when its HP is exhausted), and only the remainder hits the
town center, clamped at zero.  The final two conjuncts are the concrete
90-damage and 150-damage examples against a 100-HP Wall. -/
theorem c6_siege_wall_absorbs_before_town_center
    (gs : GameState) (au : Dict Nat) (apid dpid zone : String)
    (hw : 0 ≤ wall_hp_at gs dpid zone)
    (htc : 0 ≤ (get_player gs dpid).town_center_hp) :
    (wall_hp_at (base_attack gs au apid dpid zone) dpid zone
      = wall_hp_at gs dpid zone - min (siege_damage au) (wall_hp_at gs dpid zone)) ∧
    ((get_player (base_attack gs au apid dpid zone) dpid).town_center_hp
      = max 0 ((get_player gs dpid).town_center_hp
          - (siege_damage au - min (siege_damage au) (wall_hp_at gs dpid zone)))) ∧
    (dgetD (get_player (base_attack gs au apid dpid zone) dpid).buildings zone []
      = if 0 < wall_hp_at gs dpid zone ∧ wall_hp_at gs dpid zone ≤ siege_damage au
        then (dgetD (get_player gs dpid).buildings zone []).erase "Wall"
        else dgetD (get_player gs dpid).buildings zone []) := by
  have hdn : 0 ≤ siege_damage au := siege_damage_nonneg au
  unfold base_attack wall_hp_at at *
  set d := siege_damage au with hd
  set w := dgetD (dgetD (get_player gs dpid).building_hp zone []) "Wall" 0 with hwd
  have hmin1 : min d w ≤ d := min_le_left d w
  have hmin2 : min d w ≤ w := min_le_right d w
  have hmin3 : min d w = d ∨ min d w = w := min_choice d w
  by_cases hd0 : d ≤ 0
  · rw [if_pos hd0]
    refine ⟨by omega, by omega, ?_⟩
    rw [if_neg (by omega)]
  · rw [if_neg hd0]
    simp only
    by_cases hw0 : 0 < w
    · rw [if_pos hw0]
      by_cases hwd2 : w - min d w ≤ 0
      · rw [if_pos hwd2]
        by_cases hmem : "Wall" ∈ dgetD (get_player gs dpid).buildings zone []
        · have hmem2 : "Wall" ∈ (dget (get_player gs dpid).buildings zone).getD [] := hmem
          by_cases hdm : 0 < d - min d w
          · rw [if_pos hdm]
            refine ⟨?_, ?_, ?_⟩
            · simp [hmem, hmem2, get_player_add_log, get_upd_player, dgetD, dget_dset]
              try omega
            · simp [hmem, hmem2, get_player_add_log, get_upd_player]
              try omega
            · have hcond : 0 < w ∧ w ≤ d := ⟨hw0, by rcases hmin3 with hm | hm <;> omega⟩
              rw [if_pos hcond]
              simp [hmem, hmem2, get_player_add_log, get_upd_player, dgetD, dget_dset]
          · rw [if_neg hdm]
            refine ⟨?_, ?_, ?_⟩
            · simp [hmem, hmem2, get_player_add_log, get_upd_player, dgetD, dget_dset]
              try omega
            · simp [hmem, hmem2, get_player_add_log, get_upd_player]
              try omega
            · have hcond : 0 < w ∧ w ≤ d := ⟨hw0, by rcases hmin3 with hm | hm <;> omega⟩
              rw [if_pos hcond]
              simp [hmem, hmem2, get_player_add_log, get_upd_player, dgetD, dget_dset]
        · have hmem2 : "Wall" ∉ (dget (get_player gs dpid).buildings zone).getD [] := hmem
          by_cases hdm : 0 < d - min d w
          · rw [if_pos hdm]
            refine ⟨?_, ?_, ?_⟩
            · simp [hmem, hmem2, get_player_add_log, get_upd_player, dgetD, dget_dset]
              try omega
            · simp [hmem, hmem2, get_player_add_log, get_upd_player]
              try omega
            · have hcond : 0 < w ∧ w ≤ d := ⟨hw0, by rcases hmin3 with hm | hm <;> omega⟩
              rw [if_pos hcond, List.erase_of_not_mem hmem]
              simp [hmem, hmem2, get_player_add_log, get_upd_player, dgetD, dget_dset]
          · rw [if_neg hdm]
            refine ⟨?_, ?_, ?_⟩
            · simp [hmem, hmem2, get_player_add_log, get_upd_player, dgetD, dget_dset]
              try omega
            · simp [hmem, hmem2, get_player_add_log, get_upd_player]
              try omega
            · have hcond : 0 < w ∧ w ≤ d := ⟨hw0, by rcases hmin3 with hm | hm <;> omega⟩
              rw [if_pos hcond, List.erase_of_not_mem hmem]
              simp [hmem, hmem2, get_player_add_log, get_upd_player, dgetD, dget_dset]
      · rw [if_neg hwd2]
        rw [if_neg (show ¬0 < d - min d w by rcases hmin3 with hm | hm <;> omega)]
        refine ⟨?_, ?_, ?_⟩
        · simp [get_player_add_log, get_upd_player, dgetD, dget_dset]
          rw [show (dget ((dget (get_player gs dpid).building_hp zone).getD []) "Wall").getD 0
                = w from hwd.symm]
        · simp [get_player_add_log, get_upd_player]
          try omega
        · simp [get_player_add_log, get_upd_player]
          rw [if_neg (by rcases hmin3 with hm | hm <;> omega)]
    · rw [if_neg hw0]
      by_cases hdm : 0 < d
      · rw [if_pos hdm]
        refine ⟨?_, ?_, ?_⟩
        · simp [get_player_add_log, get_upd_player]
          try omega
        · simp [get_player_add_log, get_upd_player]
          try omega
        · simp [get_player_add_log, get_upd_player]
          rw [if_neg (by omega)]
      · omega

/-- Concrete siege scenario: defending player B holds a 100-HP Wall in
its base zone. -/
def c6_gs : GameState :=
  { GameState.new_game with
      pB := { GameState.new_game.pB with
                building_hp := dset GameState.new_game.pB.building_hp "Base_B" [("Wall", 100)]
                buildings := dset GameState.new_game.pB.buildings "Base_B" ["Wall"] } }

/-- Thirty Militia: 30 × 3 = 90 siege damage. -/
def c6_units90 : Dict Nat := [("Militia", 30)]

/-- Fifty Militia: 50 × 3 = 150 siege damage. -/
def c6_units150 : Dict Nat := [("Militia", 50)]

/-- Witness for C6: the theorem applied at the 100-HP-Wall state, plus the
claim's two concrete examples — 90 damage leaves 10 Wall HP and an
untouched town center; 150 damage destroys the Wall and deals exactly 50
to the town center (200 → 150). -/
theorem c6_siege_wall_absorbs_before_town_center_witness :
    (wall_hp_at (base_attack c6_gs c6_units90 "A" "B" "Base_B") "B" "Base_B"
      = wall_hp_at c6_gs "B" "Base_B"
          - min (siege_damage c6_units90) (wall_hp_at c6_gs "B" "Base_B")) ∧
    wall_hp_at (base_attack c6_gs c6_units90 "A" "B" "Base_B") "B" "Base_B" = 10 ∧
    (get_player (base_attack c6_gs c6_units90 "A" "B" "Base_B") "B").town_center_hp = 200 ∧
    wall_hp_at (base_attack c6_gs c6_units150 "A" "B" "Base_B") "B" "Base_B" = 0 ∧
    (get_player (base_attack c6_gs c6_units150 "A" "B" "Base_B") "B").town_center_hp = 150 ∧
    dgetD (get_player (base_attack c6_gs c6_units150 "A" "B" "Base_B") "B").buildings
        "Base_B" [] = [] :=
  ⟨(c6_siege_wall_absorbs_before_town_center c6_gs c6_units90 "A" "B" "Base_B"
      (by decide) (by decide)).1,
   by decide, by decide, by decide, by decide, by decide⟩

/-! ## Preservation lemmas for the combat pipeline -/

/-- The player fields combat's damage distribution never touches. -/
def statics (p : PlayerState) :
    Dict (List String) × Dict (Dict Int) × Int × String × Nat × Nat × Resources :=
  (p.buildings, p.building_hp, p.town_center_hp, p.base_zone, p.armor_bonus,
   p.attack_bonus, p.resources)

def statics_eq (g1 g2 : GameState) : Prop :=
  statics g1.pA = statics g2.pA ∧ statics g1.pB = statics g2.pB

theorem statics_eq_refl (gs : GameState) : statics_eq gs gs := ⟨rfl, rfl⟩

theorem statics_eq_trans {g1 g2 g3 : GameState}
    (h1 : statics_eq g1 g2) (h2 : statics_eq g2 g3) : statics_eq g1 g3 :=
  ⟨h1.1.trans h2.1, h1.2.trans h2.2⟩

theorem add_log_statics (gs : GameState) (e : LogEvent) :
    statics_eq (add_log gs e) gs := ⟨rfl, rfl⟩

theorem record_kill_statics (gs : GameState) (pid zone : String) (k : String × Nat) :
    statics_eq (record_kill gs pid zone k) gs ∧
    (record_kill gs pid zone k).pA.units = gs.pA.units ∧
    (record_kill gs pid zone k).pB.units = gs.pB.units := by
  unfold record_kill add_log upd_player set_player get_player statics_eq statics
  split_ifs <;> simp <;> split_ifs <;> simp

theorem kills_fold_statics (pid zone : String) :
    ∀ (ks : List (String × Nat)) (gs : GameState),
      statics_eq (ks.foldl (fun g k => record_kill g pid zone k) gs) gs ∧
      (ks.foldl (fun g k => record_kill g pid zone k) gs).pA.units = gs.pA.units ∧
      (ks.foldl (fun g k => record_kill g pid zone k) gs).pB.units = gs.pB.units
  | [], gs => ⟨statics_eq_refl gs, rfl, rfl⟩
  | k :: ks, gs => by
    obtain ⟨s1, u1, u2⟩ := record_kill_statics gs pid zone k
    obtain ⟨s2, u3, u4⟩ := kills_fold_statics pid zone ks (record_kill gs pid zone k)
    exact ⟨statics_eq_trans s2 s1, u3.trans u1, u4.trans u2⟩

theorem upd_player_statics (gs : GameState) (pid : String) (f : PlayerState → PlayerState)
    (hf : ∀ p, statics (f p) = statics p) :
    statics_eq (upd_player gs pid f) gs := by
  unfold upd_player set_player get_player statics_eq
  by_cases h : pid = "A" <;> simp [h, hf]

theorem apply_damage_statics (gs : GameState) (pid zone : String) (cu : Dict Nat)
    (damage : Frac) (armor : Nat) :
    statics_eq (apply_damage gs pid zone cu damage armor) gs := by
  unfold apply_damage
  refine statics_eq_trans (upd_player_statics _ _ _ ?_) (kills_fold_statics pid zone _ gs).1
  intro p
  rfl

theorem tower_fire_once_statics (gs : GameState) (firing target zone : String) :
    statics_eq (tower_fire_once gs firing target zone) gs := by
  unfold tower_fire_once
  split_ifs <;>
    first
      | exact statics_eq_refl _
      | exact statics_eq_trans (apply_damage_statics _ _ _ _ _ _) (add_log_statics _ _)

theorem apply_tower_damage_statics (gs : GameState) (zone : String) :
    statics_eq (apply_tower_damage gs zone) gs :=
  statics_eq_trans (tower_fire_once_statics _ _ _ _) (tower_fire_once_statics _ _ _ _)

theorem field_phase_statics (gs : GameState) (zone : String) (ua ub : Dict Nat) :
    statics_eq (field_phase gs zone ua ub) gs := by
  unfold field_phase
  exact statics_eq_trans (apply_damage_statics _ _ _ _ _ _)
    (statics_eq_trans (apply_damage_statics _ _ _ _ _ _) (add_log_statics _ _))

theorem base_attack_units (gs : GameState) (au : Dict Nat) (apid dpid zone : String) :
    (base_attack gs au apid dpid zone).pA.units = gs.pA.units ∧
    (base_attack gs au apid dpid zone).pB.units = gs.pB.units := by
  unfold base_attack add_log upd_player set_player get_player
  split_ifs <;> simp <;> (try split_ifs <;> simp)

theorem handle_base_attack_second_units (gs : GameState) (zone : String)
    (ua ub : Dict Nat) :
    (handle_base_attack_second gs zone ua ub).pA.units = gs.pA.units ∧
    (handle_base_attack_second gs zone ua ub).pB.units = gs.pB.units := by
  unfold handle_base_attack_second
  split_ifs
  · exact base_attack_units _ _ _ _ _
  · exact ⟨rfl, rfl⟩

theorem handle_base_attack_units (gs : GameState) (zone : String) (ua ub : Dict Nat) :
    (handle_base_attack gs zone ua ub).pA.units = gs.pA.units ∧
    (handle_base_attack gs zone ua ub).pB.units = gs.pB.units := by
  unfold handle_base_attack
  split_ifs
  · exact ⟨((handle_base_attack_second_units _ _ _ _).1).trans
        (base_attack_units _ _ _ _ _).1,
      ((handle_base_attack_second_units _ _ _ _).2).trans (base_attack_units _ _ _ _ _).2⟩
  · exact handle_base_attack_second_units _ _ _ _

theorem handle_base_attack_of_both (gs : GameState) (zone : String) (ua ub : Dict Nat)
    (ha : ¬ua.isEmpty) (hb : ¬ub.isEmpty) :
    handle_base_attack gs zone ua ub = gs := by
  unfold handle_base_attack handle_base_attack_second
  rw [if_neg (fun hcon => hb hcon.2.2)]
  rw [if_neg (fun hcon => ha hcon.2.2)]


/-! ## C3: contested zones and same-tick sieges -/

/-- Player A has moved 10 Knights into B's base zone, where B's three
starting Villagers stand: the zone is contested. -/
def c3_gs : GameState :=
  { GameState.new_game with
      pA := { GameState.new_game.pA with
                units := dset GameState.new_game.pA.units "Base_B" [("Knight", 10)] } }

/-- C3 counterexample: in `c3_gs` both players still have units in Base_B
after the area-defense phase, so field combat occurs — yet the same call
to `resolve_combat` also resolves a siege: the field round kills all three
defending Villagers, the siege check then sees the zone as undefended, and
B's town center drops 200 → 146 in the same tick. -/
theorem c3_contested_zone_sieged_same_tick :
    (¬(filter_pos (dgetD (apply_tower_damage c3_gs "Base_B").pA.units "Base_B" [])).isEmpty) ∧
    (¬(filter_pos (dgetD (apply_tower_damage c3_gs "Base_B").pB.units "Base_B" [])).isEmpty) ∧
    (resolve_combat c3_gs "Base_B").pB.town_center_hp = 146 ∧
    (resolve_combat c3_gs "Base_B").pB.town_center_hp < c3_gs.pB.town_center_hp :=
  ⟨by decide, by decide, by decide, by decide⟩

/-- C3 amended: the siege check uses post-combat occupancy.  A siege is
skipped only when the zone is still contested after field combat: if both
players still have units present in the zone once `resolve_combat`
finishes, then no town-center damage, no Wall damage, and no building
change happened in that zone resolution at all. -/
theorem c3_no_siege_when_zone_still_contested_after_combat
    (gs : GameState) (zone : String)
    (ha : ¬(filter_pos (dgetD (resolve_combat gs zone).pA.units zone [])).isEmpty)
    (hb : ¬(filter_pos (dgetD (resolve_combat gs zone).pB.units zone [])).isEmpty) :
    (resolve_combat gs zone).pA.town_center_hp = gs.pA.town_center_hp ∧
    (resolve_combat gs zone).pB.town_center_hp = gs.pB.town_center_hp ∧
    (resolve_combat gs zone).pA.building_hp = gs.pA.building_hp ∧
    (resolve_combat gs zone).pB.building_hp = gs.pB.building_hp ∧
    (resolve_combat gs zone).pA.buildings = gs.pA.buildings ∧
    (resolve_combat gs zone).pB.buildings = gs.pB.buildings := by
  by_cases hempty :
      (filter_pos (dgetD (apply_tower_damage gs zone).pA.units zone [])).isEmpty ∨
      (filter_pos (dgetD (apply_tower_damage gs zone).pB.units zone [])).isEmpty
  · have hres : resolve_combat gs zone
        = handle_base_attack (apply_tower_damage gs zone) zone
            (filter_pos (dgetD (apply_tower_damage gs zone).pA.units zone []))
            (filter_pos (dgetD (apply_tower_damage gs zone).pB.units zone [])) := by
      simp only [resolve_combat]
      rw [if_pos hempty]
    exfalso
    rcases hempty with h | h
    · apply ha
      rw [hres, (handle_base_attack_units _ _ _ _).1]
      exact h
    · apply hb
      rw [hres, (handle_base_attack_units _ _ _ _).2]
      exact h
  · have hres : resolve_combat gs zone
        = handle_base_attack
            (field_phase (apply_tower_damage gs zone) zone
              (filter_pos (dgetD (apply_tower_damage gs zone).pA.units zone []))
              (filter_pos (dgetD (apply_tower_damage gs zone).pB.units zone []))) zone
            (filter_pos (dgetD (field_phase (apply_tower_damage gs zone) zone
              (filter_pos (dgetD (apply_tower_damage gs zone).pA.units zone []))
              (filter_pos (dgetD (apply_tower_damage gs zone).pB.units zone []))).pA.units
                zone []))
            (filter_pos (dgetD (field_phase (apply_tower_damage gs zone) zone
              (filter_pos (dgetD (apply_tower_damage gs zone).pA.units zone []))
              (filter_pos (dgetD (apply_tower_damage gs zone).pB.units zone []))).pB.units
                zone [])) := by
      simp only [resolve_combat]
      rw [if_neg hempty]
    have hA2 : ¬(filter_pos (dgetD (field_phase (apply_tower_damage gs zone) zone
        (filter_pos (dgetD (apply_tower_damage gs zone).pA.units zone []))
        (filter_pos (dgetD (apply_tower_damage gs zone).pB.units zone []))).pA.units
          zone [])).isEmpty := by
      intro hcon
      apply ha
      rw [hres, (handle_base_attack_units _ _ _ _).1]
      exact hcon
    have hB2 : ¬(filter_pos (dgetD (field_phase (apply_tower_damage gs zone) zone
        (filter_pos (dgetD (apply_tower_damage gs zone).pA.units zone []))
        (filter_pos (dgetD (apply_tower_damage gs zone).pB.units zone []))).pB.units
          zone [])).isEmpty := by
      intro hcon
      apply hb
      rw [hres, (handle_base_attack_units _ _ _ _).2]
      exact hcon
    rw [hres, handle_base_attack_of_both _ _ _ _ hA2 hB2]
    have hstat := statics_eq_trans
      (field_phase_statics (apply_tower_damage gs zone) zone
        (filter_pos (dgetD (apply_tower_damage gs zone).pA.units zone []))
        (filter_pos (dgetD (apply_tower_damage gs zone).pB.units zone [])))
      (apply_tower_damage_statics gs zone)
    obtain ⟨ea, eb⟩ := hstat
    simp only [statics, Prod.mk.injEq] at ea eb
    exact ⟨ea.2.2.1, eb.2.2.1, ea.2.1, eb.2.1, ea.1, eb.1⟩

/-- Both players field 100 Militia in B's base zone: after the
simultaneous round 62 survive on each side, so the zone stays contested. -/
def c3_wgs : GameState :=
  { GameState.new_game with
      pA := { GameState.new_game.pA with
                units := dset GameState.new_game.pA.units "Base_B" [("Militia", 100)] }
      pB := { GameState.new_game.pB with
                units := dset GameState.new_game.pB.units "Base_B"
                  [("Villager", 3), ("Militia", 100)] } }

/-- Witness for the amended C3: with both armies surviving the round in
B's base zone, no siege fires — B's town center stays at 200. -/
theorem c3_no_siege_when_zone_still_contested_after_combat_witness :
    (resolve_combat c3_wgs "Base_B").pA.town_center_hp = c3_wgs.pA.town_center_hp ∧
    (resolve_combat c3_wgs "Base_B").pB.town_center_hp = c3_wgs.pB.town_center_hp ∧
    (resolve_combat c3_wgs "Base_B").pA.building_hp = c3_wgs.pA.building_hp ∧
    (resolve_combat c3_wgs "Base_B").pB.building_hp = c3_wgs.pB.building_hp ∧
    (resolve_combat c3_wgs "Base_B").pA.buildings = c3_wgs.pA.buildings ∧
    (resolve_combat c3_wgs "Base_B").pB.buildings = c3_wgs.pB.buildings :=
  c3_no_siege_when_zone_still_contested_after_combat c3_wgs "Base_B"
    (by decide) (by decide)

/-! ## C7: simultaneity of field combat -/

/-- Modelled from the spec sentence for comparison with the code: both
sides' damage totals are computed from the unit counts as they stood
before the round, and both are applied afterwards. -/
def simultaneous_field_spec (gs : GameState) (zone : String) (ua ub : Dict Nat) :
    GameState :=
  let dToB := compute_total_damage ua ub gs.pA.attack_bonus
  let dToA := compute_total_damage ub ua gs.pB.attack_bonus
  let gs1 := add_log gs (.combatStart zone ua ub)
  let gs2 := apply_damage gs1 "A" zone ua dToA gs.pA.armor_bonus
  apply_damage gs2 "B" zone ub dToB gs.pB.armor_bonus

/-- Two lone Militia face off: each deals 3 damage against 8 HP, so under
simultaneous resolution both die (under any sequential order, the first
kill would silence the return blow). -/
def c7_gs : GameState :=
  { GameState.new_game with
      pA := { GameState.new_game.pA with
                units := dset GameState.new_game.pA.units "Mid_A" [("Militia", 1)] }
      pB := { GameState.new_game.pB with
                units := dset GameState.new_game.pB.units "Mid_A" [("Militia", 1)] } }

/-- C7: the code's field phase coincides with the spec-worded simultaneous
round — in particular the damage applied to either side is a function of
the pre-round unit counts only, which requires that applying A's losses
does not disturb B's outgoing damage (armor and attack bonuses are
untouched by damage application).  The closed conjuncts exhibit mutual
annihilation, which no sequential scheme produces. -/
theorem c7_field_combat_is_simultaneous :
    (∀ (gs : GameState) (zone : String) (ua ub : Dict Nat),
      field_phase gs zone ua ub = simultaneous_field_spec gs zone ua ub) ∧
    c7_gs.pA.unit_count "Mid_A" "Militia" = 1 ∧
    c7_gs.pB.unit_count "Mid_A" "Militia" = 1 ∧
    (resolve_combat c7_gs "Mid_A").pA.unit_count "Mid_A" "Militia" = 0 ∧
    (resolve_combat c7_gs "Mid_A").pB.unit_count "Mid_A" "Militia" = 0 := by
  refine ⟨?_, by decide, by decide, by decide, by decide⟩
  intro gs zone ua ub
  simp only [field_phase, simultaneous_field_spec, add_log]
  have harm : (apply_damage { gs with log := gs.log ++ [(gs.turn, LogEvent.combatStart zone ua ub)] }
      "A" zone ua (compute_total_damage ub ua gs.pB.attack_bonus)
      gs.pA.armor_bonus).pB.armor_bonus = gs.pB.armor_bonus := by
    have h := (apply_damage_statics
      { gs with log := gs.log ++ [(gs.turn, LogEvent.combatStart zone ua ub)] }
      "A" zone ua (compute_total_damage ub ua gs.pB.attack_bonus) gs.pA.armor_bonus).2
    simp only [statics, Prod.mk.injEq] at h
    exact h.2.2.2.2.1
  rw [harm]


/-! ## C10: combat damages only the Wall and the town center -/

/-- What combat may never change for a non-Wall building type `b`: its
multiplicity in a zone's building list and its entry in the zone's HP
map. -/
def nonwall_view (p : PlayerState) (z b : String) : Nat × Option Int :=
  ((dgetD p.buildings z []).count b, dget (dgetD p.building_hp z []) b)

theorem nonwall_view_of_statics {g1 g2 : GameState} (h : statics_eq g1 g2)
    (z b : String) :
    nonwall_view g1.pA z b = nonwall_view g2.pA z b ∧
    nonwall_view g1.pB z b = nonwall_view g2.pB z b := by
  obtain ⟨ea, eb⟩ := h
  simp only [statics, Prod.mk.injEq] at ea eb
  unfold nonwall_view
  rw [ea.1, ea.2.1, eb.1, eb.2.1]
  exact ⟨rfl, rfl⟩

theorem base_attack_nonwall (gs : GameState) (au : Dict Nat)
    (apid dpid zone b : String) (hb : b ≠ "Wall") (z : String) :
    nonwall_view (base_attack gs au apid dpid zone).pA z b = nonwall_view gs.pA z b ∧
    nonwall_view (base_attack gs au apid dpid zone).pB z b = nonwall_view gs.pB z b := by
  by_cases hz : zone = z
  all_goals
    unfold base_attack add_log upd_player set_player get_player nonwall_view
    split_ifs <;>
      simp [hz, dgetD, dget_dset, List.count_erase_of_ne hb, Ne.symm hb] <;>
      (try split_ifs <;>
        simp [hz, dgetD, dget_dset, List.count_erase_of_ne hb, Ne.symm hb])

theorem handle_base_attack_second_nonwall (gs : GameState) (zone : String)
    (ua ub : Dict Nat) (b : String) (hb : b ≠ "Wall") (z : String) :
    nonwall_view (handle_base_attack_second gs zone ua ub).pA z b
        = nonwall_view gs.pA z b ∧
    nonwall_view (handle_base_attack_second gs zone ua ub).pB z b
        = nonwall_view gs.pB z b := by
  unfold handle_base_attack_second
  split_ifs
  · exact base_attack_nonwall _ _ _ _ _ _ hb _
  · exact ⟨rfl, rfl⟩

theorem handle_base_attack_nonwall (gs : GameState) (zone : String)
    (ua ub : Dict Nat) (b : String) (hb : b ≠ "Wall") (z : String) :
    nonwall_view (handle_base_attack gs zone ua ub).pA z b = nonwall_view gs.pA z b ∧
    nonwall_view (handle_base_attack gs zone ua ub).pB z b = nonwall_view gs.pB z b := by
  unfold handle_base_attack
  split_ifs
  · exact ⟨(handle_base_attack_second_nonwall _ _ _ _ _ hb _).1.trans
        (base_attack_nonwall _ _ _ _ _ _ hb _).1,
      (handle_base_attack_second_nonwall _ _ _ _ _ hb _).2.trans
        (base_attack_nonwall _ _ _ _ _ _ hb _).2⟩
  · exact handle_base_attack_second_nonwall _ _ _ _ _ hb _

/-- C10: one zone resolution of combat — tower fire, field combat, siege —
never changes the multiplicity of any non-Wall building in any zone of
either player, nor its building-HP entry.  Tower fire and field combat
consume only units; the siege phase writes only the Wall HP entry, the
Wall list entry, and the town-center counter.  Since construction only
appends, Barracks, Range, Tower and Blacksmith persist once built. -/
theorem c10_combat_damages_only_wall_and_town_center
    (gs : GameState) (zone z b : String) (hb : b ≠ "Wall") :
    nonwall_view (resolve_combat gs zone).pA z b = nonwall_view gs.pA z b ∧
    nonwall_view (resolve_combat gs zone).pB z b = nonwall_view gs.pB z b := by
  by_cases hempty :
      (filter_pos (dgetD (apply_tower_damage gs zone).pA.units zone [])).isEmpty ∨
      (filter_pos (dgetD (apply_tower_damage gs zone).pB.units zone [])).isEmpty
  · have hres : resolve_combat gs zone
        = handle_base_attack (apply_tower_damage gs zone) zone
            (filter_pos (dgetD (apply_tower_damage gs zone).pA.units zone []))
            (filter_pos (dgetD (apply_tower_damage gs zone).pB.units zone [])) := by
      simp only [resolve_combat]
      rw [if_pos hempty]
    rw [hres]
    have h1 := handle_base_attack_nonwall (apply_tower_damage gs zone) zone
      (filter_pos (dgetD (apply_tower_damage gs zone).pA.units zone []))
      (filter_pos (dgetD (apply_tower_damage gs zone).pB.units zone [])) b hb z
    have h2 := nonwall_view_of_statics (apply_tower_damage_statics gs zone) z b
    exact ⟨h1.1.trans h2.1, h1.2.trans h2.2⟩
  · have hres : resolve_combat gs zone
        = handle_base_attack
            (field_phase (apply_tower_damage gs zone) zone
              (filter_pos (dgetD (apply_tower_damage gs zone).pA.units zone []))
              (filter_pos (dgetD (apply_tower_damage gs zone).pB.units zone []))) zone
            (filter_pos (dgetD (field_phase (apply_tower_damage gs zone) zone
              (filter_pos (dgetD (apply_tower_damage gs zone).pA.units zone []))
              (filter_pos (dgetD (apply_tower_damage gs zone).pB.units zone []))).pA.units
                zone []))
            (filter_pos (dgetD (field_phase (apply_tower_damage gs zone) zone
              (filter_pos (dgetD (apply_tower_damage gs zone).pA.units zone []))
              (filter_pos (dgetD (apply_tower_damage gs zone).pB.units zone []))).pB.units
                zone [])) := by
      simp only [resolve_combat]
      rw [if_neg hempty]
    rw [hres]
    have h1 := handle_base_attack_nonwall (field_phase (apply_tower_damage gs zone) zone
      (filter_pos (dgetD (apply_tower_damage gs zone).pA.units zone []))
      (filter_pos (dgetD (apply_tower_damage gs zone).pB.units zone []))) zone
      (filter_pos (dgetD (field_phase (apply_tower_damage gs zone) zone
        (filter_pos (dgetD (apply_tower_damage gs zone).pA.units zone []))
        (filter_pos (dgetD (apply_tower_damage gs zone).pB.units zone []))).pA.units zone []))
      (filter_pos (dgetD (field_phase (apply_tower_damage gs zone) zone
        (filter_pos (dgetD (apply_tower_damage gs zone).pA.units zone []))
        (filter_pos (dgetD (apply_tower_damage gs zone).pB.units zone []))).pB.units zone []))
      b hb z
    have h2 := nonwall_view_of_statics (field_phase_statics (apply_tower_damage gs zone)
      zone (filter_pos (dgetD (apply_tower_damage gs zone).pA.units zone []))
      (filter_pos (dgetD (apply_tower_damage gs zone).pB.units zone []))) z b
    have h3 := nonwall_view_of_statics (apply_tower_damage_statics gs zone) z b
    exact ⟨h1.1.trans (h2.1.trans h3.1), h1.2.trans (h2.2.trans h3.2)⟩

/-- Witness for C10: the contested-siege scenario of `c3_gs` leaves every
player's Barracks count and HP entry in every zone untouched even though
a siege resolves. -/
theorem c10_combat_damages_only_wall_and_town_center_witness :
    nonwall_view (resolve_combat c3_gs "Base_B").pA "Base_A" "Barracks"
        = nonwall_view c3_gs.pA "Base_A" "Barracks" ∧
    nonwall_view (resolve_combat c3_gs "Base_B").pB "Base_A" "Barracks"
        = nonwall_view c3_gs.pB "Base_A" "Barracks" :=
  c10_combat_damages_only_wall_and_town_center c3_gs "Base_B" "Base_A" "Barracks"
    (by decide)


end AgeOfAgents
